import Mathlib

/-!
# SlimExc library: type descriptors and exception frames

A shallow embedding of `SlimRTTI.hpp`, `ExceptionState.hpp` and `ExceptionState.cpp`.

Build configuration embedded here: `__SLIM_EXC_SLIM_RTTI_POINTER`,
`__SLIM_EXC_SLIM_RTTI_QUALIFIER` and `__SLIM_EXC_RTTI_STRATEGY_SLIM` defined;
`__SLIM_EXC_ONLY_ONE_TYPE` and `__SLIM_EXC_ONLY_FUNDAMENTAL_TYPES` not defined.
This is the variant in which every field of the descriptor and of the frame exists.
-/

namespace SlimRTTI

/-! ## C++ types -/

/-- The type left once references, cv-qualifiers and pointers are removed:
`void`, a class (numbered in order of definition), or any other type
(fundamental types, enumerations, unions: types without base classes). -/
inductive BaseType where
  | void
  | nonclass (k : Nat)
  | cls (c : Nat)
deriving DecidableEq, Repr

/-- A non-reference type: a base type or a pointer, each level carrying its own
`const` and `volatile` qualifier. `ptr c v p` is a (c,v)-qualified pointer to `p`. -/
inductive ObjType where
  | base (isConst isVolatile : Bool) (b : BaseType)
  | ptr (isConst isVolatile : Bool) (pointee : ObjType)
deriving DecidableEq, Repr

/-- A template argument `T`: an object type, or a reference to one
(`std::is_reference<T>` is the flag `isReference`). -/
structure CType where
  isReference : Bool
  obj : ObjType
deriving DecidableEq, Repr

/-- The part of the program the templates inspect at compile time. -/
structure TypeEnv where
  /-- The trait `std::tr2::direct_bases<T>::type::first` of class number `c`, if it has bases. -/
  firstBase : Nat → Option Nat
  /-- A base class is a complete type where the derived class is defined. -/
  base_before : ∀ c b, firstBase c = some b → b < c
  /-- The trait `std::is_destructible<T>`. -/
  isDestructible : CType → Bool

/-- A `void**` type identity: the address of the function-local `static void** const id`
of the `getTypeId` instantiation reached for a base type. Distinct static objects have
distinct addresses, so the address is named by the base type it belongs to. -/
abbrev TypeId := BaseType

/-- Dereferencing a type identity (`*ppTmpId`): the value the static `id` was initialised
with. It is `nullptr` (`none`) for `void` and for a type without bases, and
`getTypeId<BaseType0>()` for a class whose first direct base is `BaseType0`. -/
def TypeEnv.load (env : TypeEnv) : TypeId → Option TypeId
  | .cls c => (env.firstBase c).map BaseType.cls
  | _ => none

/-- Base type of an object type: what the recursion of `getTypeId` ends on. -/
def ObjType.stripped : ObjType → BaseType
  | .base _ _ b => b
  | .ptr _ _ p => p.stripped

/-- Source function `getTypeId<T>()`: removes the reference, then `const`, `volatile` and pointer levels
one by one, and returns the address of the static `id` of the remaining type. -/
def getTypeId (T : CType) : TypeId := T.obj.stripped

/-- The recursion of `getPointerLevel` below the reference; the result is a `uint8_t`. -/
def getPointerLevelObj : ObjType → Nat
  | .base _ _ _ => 0
  | .ptr _ _ p => (getPointerLevelObj p + 1) % 256

/-- Source function `getPointerLevel<T>()`: `remove_reference`, `remove_cv`, then one more than the
level of the pointee for a pointer, and 0 otherwise. -/
def getPointerLevel (T : CType) : Nat := getPointerLevelObj T.obj

/-- The recursion of `getConstMask` below the reference. `volatile` is removed without
effect. A `const` level contributes bit 0, the pointee contributes its mask shifted
left by one; the result is narrowed to `uint8_t`. -/
def getConstMaskObj : ObjType → Nat
  | .base c _ _ => if c then 1 else 0
  | .ptr c _ p =>
    if c then (1 ||| (getConstMaskObj p <<< 1)) % 256
    else (getConstMaskObj p <<< 1) % 256

/-- Source function `InstanceType::getConstMask<T>()`. -/
def getConstMask (T : CType) : Nat := getConstMaskObj T.obj

/-- Source function `InstanceType::isPotentialBasetype<T>()`: `std::is_class` of the stripped type. -/
def isPotentialBasetype (T : CType) : Bool :=
  match T.obj.stripped with
  | .cls _ => true
  | _ => false

/-- The trait `std::is_pointer<T>`: true for a possibly cv-qualified pointer, false for a reference. -/
def isPointer (T : CType) : Bool :=
  match T.isReference, T.obj with
  | false, .ptr _ _ _ => true
  | _, _ => false

/-- The class `InstanceType`: `typeId` and the two fields of `metaData`. -/
structure InstanceType where
  typeId : TypeId
  constMask : Nat
  ptrDepth : Nat
deriving DecidableEq, Repr

namespace InstanceType

/-- Source function `InstanceType::clear()`, also the state after the default constructor. -/
def clear : InstanceType :=
  { typeId := getTypeId ⟨false, .base false false .void⟩, constMask := 0, ptrDepth := 0 }

/-- Source function `InstanceType::set<T>()` with `initializeMetadata<T>()`. The `static_assert`
rejects at compile time a `T` of pointer level 8 or more. -/
def set (T : CType) : InstanceType :=
  { typeId := getTypeId T, constMask := getConstMask T, ptrDepth := getPointerLevel T }

/-- Source function `InstanceType::isPtrDepthCatchCompatible<T>()`. -/
def isPtrDepthCatchCompatible (self : InstanceType) (T : CType) : Bool :=
  if self.ptrDepth ≠ getPointerLevel T then false else true

/-- Source function `InstanceType::areQualifiersCatchCompatible<T>()`; `~` on a `uint8_t` is `255 - m`. -/
def areQualifiersCatchCompatible (self : InstanceType) (T : CType) : Bool :=
  if self.ptrDepth > 0 then
    let invertedCatchMask := 255 - getConstMask T
    if (invertedCatchMask &&& self.constMask) ≠ 0 then false else true
  else true

/-- Source function `InstanceType::isEqualTo<T>()`. -/
def isEqualTo (self : InstanceType) (T : CType) : Bool :=
  if getTypeId T = self.typeId then true else false

/-- The `while (pp != nullptr)` loop shared by `isDerivedOf` and `isBaseOf`: compare
`target` with `pp`, then follow the pointer one level up. The loop runs at most `fuel`
times; `walk_fuel_enough` shows the fuel passed by the callers never runs out. -/
def walk (env : TypeEnv) (target : TypeId) : Nat → Option TypeId → Bool
  | _, none => false
  | 0, some _ => false
  | fuel + 1, some pp => if target = pp then true else walk env target fuel (env.load pp)

/-- Number of chain nodes from a type identity up to the root, at most. -/
def chainBound : TypeId → Nat
  | .cls c => c + 1
  | _ => 0

/-- Source function `InstanceType::isDerivedOf<T>()`. -/
def isDerivedOf (env : TypeEnv) (self : InstanceType) (T : CType) : Bool :=
  if isPotentialBasetype T then
    walk env (getTypeId T) (chainBound self.typeId) (env.load self.typeId)
  else false

/-- Source function `InstanceType::isBaseOf<T>()`. -/
def isBaseOf (env : TypeEnv) (self : InstanceType) (T : CType) : Bool :=
  walk env self.typeId (chainBound (getTypeId T)) (env.load (getTypeId T))

/-- Source function `InstanceType::do_catch<T>()`. -/
def do_catch (env : TypeEnv) (self : InstanceType) (T : CType) : Bool :=
  if !self.isPtrDepthCatchCompatible T || !self.areQualifiersCatchCompatible T then false
  else if self.isEqualTo T || self.isDerivedOf env T then true
  else false

end InstanceType

/-! ## Vocabulary of the specification about types -/

/-- Number of pointer indirections of an object type (no narrowing). -/
def ObjType.depth : ObjType → Nat
  | .base _ _ _ => 0
  | .ptr _ _ p => p.depth + 1

/-- Whether indirection level `i` is `const`; level 0 is the outermost one. -/
def ObjType.constAt : ObjType → Nat → Bool
  | .base c _ _, 0 => c
  | .base _ _ _, _ + 1 => false
  | .ptr c _ _, 0 => c
  | .ptr _ _ p, i + 1 => p.constAt i

/-- Pointer depth of a template argument. -/
def CType.depth (T : CType) : Nat := T.obj.depth

/-- Constness of level `i` of a template argument. -/
def CType.constAt (T : CType) (i : Nat) : Bool := T.obj.constAt i

/-- The handler type `T` only adds const qualification to the thrown type `X`. -/
def OnlyAddsConst (X T : CType) : Prop := ∀ i, X.constAt i = true → T.constAt i = true

/-- The identity `a` has parent `b` in the single-inheritance chain. -/
def ParentOf (env : TypeEnv) (a b : TypeId) : Prop := env.load a = some b

/-- The identity `u` is a strict ancestor of `t`: reached from `t` by one or more
parent steps. -/
def IsAncestor (env : TypeEnv) (u t : TypeId) : Prop := Relation.TransGen (ParentOf env) t u

/-- A small program: class 0 `Base`, class 1 `Derived : Base`, class 2 `Unrelated`,
class 3 `MoreDerived : Derived`; every type is destructible. -/
def sampleEnv : TypeEnv where
  firstBase := fun c => if c = 1 then some 0 else if c = 3 then some 1 else none
  base_before := by
    intro c b h
    dsimp only at h
    split_ifs at h with h1 h3 <;> simp at h <;> omega
  isDestructible := fun _ => true

/-- The type `int`. -/
def tInt : CType := ⟨false, .base false false (.nonclass 0)⟩

/-- The type `const int`. -/
def tConstInt : CType := ⟨false, .base true false (.nonclass 0)⟩

/-- The type `int*`. -/
def tIntPtr : CType := ⟨false, .ptr false false (.base false false (.nonclass 0))⟩

/-- The class type number `c`, unqualified. -/
def tClass (c : Nat) : CType := ⟨false, .base false false (.cls c)⟩

/-- The type `const C&` for the class number `c`. -/
def tConstClassRef (c : Nat) : CType := ⟨true, .base true false (.cls c)⟩

/-- The type `const int*`. -/
def tConstIntPtr : CType := ⟨false, .ptr false false (.base true false (.nonclass 0))⟩

end SlimRTTI

open SlimRTTI

namespace SlimExcLib

/-! ## Exception frames -/

/-- One `unsigned char`. -/
abbrev Byte := Nat

/-- The array `unsigned char exceptionBuffer[__SLIM_EXC_BUFFER_SIZE]`; `n` is the
buffer size chosen at build time. -/
structure Buffer (n : Nat) where
  bytes : List Byte
  size_eq : bytes.length = n
deriving DecidableEq

/-- The assignment `dst[i] = src[i]`. -/
def Buffer.copyByte {n : Nat} (src dst : Buffer n) (i : Nat) : Buffer n :=
  ⟨dst.bytes.set i (src.bytes.getD i 0), by rw [List.length_set]; exact dst.size_eq⟩

/-- The loop `for (i = 0; i < sizeof(dst); i++) dst[i] = src[i]` of `takeInstance`. -/
def Buffer.copyLoop {n : Nat} (src dst : Buffer n) : Buffer n :=
  (List.range n).foldl (fun d i => Buffer.copyByte src d i) dst

/-- Placement new of an object whose representation is `obj`: its bytes are written at
the start of the buffer, the bytes behind it stay. An object larger than the buffer is
outside the model (the source has no check; it would overflow the array). -/
def Buffer.store {n : Nat} (buf : Buffer n) (obj : List Byte) : Buffer n :=
  ⟨(obj ++ buf.bytes.drop obj.length).take n, by simp [buf.size_eq]; omega⟩

/-- The enumeration `ExceptionState::State`. -/
inductive State where
  | CLEAR
  | HANDLERETHROW
  | HANDLETHROW
  | THROW
  | RETHROW
deriving DecidableEq, Repr

/-- The `uint8_t` value of an enumerator. -/
def State.toNat : State → Nat
  | .CLEAR => 0
  | .HANDLERETHROW => 1
  | .HANDLETHROW => 2
  | .THROW => 3
  | .RETHROW => 4

/-- The fields of one `ExceptionState` object. `destruct` is `nullptr` (`none`) or
`&destructorInvoker<T>` (`some T`). `previousES` is the address held in the pointer
field, 0 for `NULL`; the frames it leads to are passed to the methods as a chain. -/
structure ExceptionState (n : Nat) where
  exceptionBuffer : Buffer n
  typeId : InstanceType
  destruct : Option CType
  previousES : Nat
  state : State
deriving DecidableEq

/-- What an `ExceptionState*` points to: the frame followed by the frames reached
through `previousES`, innermost first; `NULL` is the empty chain. A method is given
`this` as the frame and the chain behind `this->previousES`. -/
abbrev Chain (n : Nat) := List (ExceptionState n)

/-- The address of the frame heading a chain: its nesting depth, the outermost frame
being at address 1, and 0 for `NULL`. -/
def Chain.address {n : Nat} (c : Chain n) : Nat := c.length

/-- One call `destruct((const void*)&exceptionBuffer)`: the invoked function
`destructorInvoker<T>` and the buffer contents it was called on. Destructors are taken
not to touch any frame. -/
structure DestructorCall (n : Nat) where
  invoker : CType
  object : Buffer n
deriving DecidableEq

/-- The destructor calls made so far, oldest first. -/
abbrev Log (n : Nat) := List (DestructorCall n)

/-- How a call ends: it returns, it calls `std::terminate()`, or it dereferences a
`NULL` frame pointer (undefined behaviour; no `std::terminate()` call is made). -/
inductive Outcome (α : Type) where
  | ret (a : α)
  | terminate
  | nullDeref
deriving DecidableEq

/-- Sequencing of calls: the next call runs only if the previous one returned. -/
def Outcome.bind {α β : Type} : Outcome α → (α → Outcome β) → Outcome β
  | .ret a, f => f a
  | .terminate, _ => .terminate
  | .nullDeref, _ => .nullDeref

/-- The argument `exc` of `throwException`: a reference to the object at the address
of the own `exceptionBuffer`, or to an object elsewhere; `bytes` is the representation
the copy or move constructor `T(exc)` produces. -/
inductive ExcArg where
  | ownBuffer
  | object (bytes : List Byte)
deriving DecidableEq

/-- The `void*` returned by `getExceptionReference`: the address of the
`exceptionBuffer` of the frame at address `frame`, or the pointer value read from the
start of a buffer with contents `buf`. -/
inductive VoidPtr (n : Nat) where
  | bufferOf (frame : Nat)
  | storedIn (buf : Buffer n)
deriving DecidableEq

/-- The result of `~ExceptionState()`: the last contents of the destroyed frame, the
chain passed to `setCurrentExceptionState`, and the log. -/
structure Destroyed (n : Nat) where
  dead : ExceptionState n
  current : Chain n
  log : Log n
deriving DecidableEq

namespace ExceptionState

variable {n : Nat}

/-- Source `ExceptionState::ExceptionState(previous)`: cleared descriptor, no destructor,
state `CLEAR`; the buffer is not initialised and holds `garbage`. The result is the
chain passed to `setCurrentExceptionState(this)`. -/
def create (garbage : Buffer n) (previous : Chain n) : Chain n :=
  { exceptionBuffer := garbage, typeId := InstanceType.clear, destruct := none,
    previousES := previous.address, state := .CLEAR } :: previous

/-- Source function `isExceptionInState(state)`. -/
def isExceptionInState (this : ExceptionState n) (state : State) : Bool :=
  decide (this.state = state)

/-- Source function `isExceptionThrowing()`: `state >= State::THROW`. -/
def isExceptionThrowing (this : ExceptionState n) : Bool :=
  decide (this.state.toNat ≥ State.THROW.toNat)

/-- Source function `setToHandlingState()`. -/
def setToHandlingState (this : ExceptionState n) : ExceptionState n :=
  { this with state := .HANDLETHROW }

/-- Source function `setToThrowingState()`. -/
def setToThrowingState (this : ExceptionState n) : ExceptionState n :=
  { this with state := .THROW }

/-- Source function `setToHandleRethrowState()`. -/
def setToHandleRethrowState (this : ExceptionState n) : ExceptionState n :=
  { this with state := .HANDLERETHROW }

/-- Source function `setToRethrowingState()`. -/
def setToRethrowingState (this : ExceptionState n) : ExceptionState n :=
  { this with state := .RETHROW }

/-- Source function `compareAdresses(exc, this->exceptionBuffer)`. -/
def compareAdresses : ExcArg → Bool
  | .ownBuffer => true
  | .object _ => false

/-- The call `this->destruct(&this->exceptionBuffer)` guarded by
`this->destruct != nullptr`. -/
def callDestructIfSet (this : ExceptionState n) (log : Log n) : Log n :=
  match this.destruct with
  | some d => log ++ [⟨d, this.exceptionBuffer⟩]
  | none => log

/-- Source function `takeInstance(source)`: returns the new `this` and the new `source`. -/
def takeInstance (this source : ExceptionState n) : ExceptionState n × ExceptionState n :=
  let this1 := { this with typeId := source.typeId }
  let this2 := { this1 with destruct := source.destruct }
  let this3 := { this2 with state := source.state }
  let this4 := { this3 with exceptionBuffer := Buffer.copyLoop source.exceptionBuffer this3.exceptionBuffer }
  let source1 := { source with destruct := none }
  let source2 := { source1 with typeId := InstanceType.clear }
  let source3 := { source2 with state := State.CLEAR }
  (this4, source3)

/-- Source function `propagateUp()`: returns the new `this`, the new chain of `previousES`, the log. -/
def propagateUp (this : ExceptionState n) (previousES : Chain n) (log : Log n) :
    Outcome (ExceptionState n × Chain n × Log n) :=
  match previousES with
  | [] => .terminate
  | prev :: up =>
    if prev.isExceptionThrowing then .terminate
    else if this.isExceptionInState .RETHROW && prev.isExceptionInState .HANDLETHROW then
      .ret (this, prev.setToThrowingState :: up, log)
    else
      let log1 := prev.callDestructIfSet log
      let r := prev.takeInstance this
      .ret (r.2, r.1 :: up, log1)

/-- Source `~ExceptionState()`. -/
def destroy (this : ExceptionState n) (previousES : Chain n) (log : Log n) :
    Outcome (Destroyed n) :=
  if this.isExceptionThrowing then
    match this.propagateUp previousES log with
    | .ret (this1, previous1, log1) => .ret ⟨this1, previous1, log1⟩
    | .terminate => .terminate
    | .nullDeref => .nullDeref
  else
    .ret ⟨this, previousES, this.callDestructIfSet log⟩

/-- The loop of `getLatestHandlingExceptionState`, started on `tmpState`. -/
def findHandling : Chain n → Chain n
  | [] => []
  | tmpState :: up =>
    if tmpState.state = .HANDLETHROW then tmpState :: up else findHandling up

/-- Source function `getLatestHandlingExceptionState()`: the nearest frame behind `this` in state
`HANDLETHROW`, or `NULL`. -/
def getLatestHandlingExceptionState (previousES : Chain n) : Chain n :=
  findHandling previousES

/-- Source function `throwExceptionHelper<T>(exc)`: returns the result and the new `this`. -/
def throwExceptionHelper (env : TypeEnv) (T : CType) (exc : ExcArg)
    (this : ExceptionState n) (log : Log n) : Outcome (Bool × ExceptionState n × Log n) :=
  if this.isExceptionThrowing then .terminate
  else if compareAdresses exc then .ret (false, this.setToThrowingState, log)
  else
    let log1 := this.callDestructIfSet log
    let this1 :=
      if env.isDestructible T then { this with destruct := some T }
      else { this with destruct := none }
    let this2 := { this1 with typeId := InstanceType.set T }
    .ret (true, { this2 with state := .THROW }, log1)

/-- The placement new `new(this->exceptionBuffer) T(exc)`. -/
def construct (this : ExceptionState n) : ExcArg → ExceptionState n
  | .object bytes => { this with exceptionBuffer := this.exceptionBuffer.store bytes }
  | .ownBuffer => this

/-- Source function `throwException<T>(exc)`, both overloads. -/
def throwException (env : TypeEnv) (T : CType) (exc : ExcArg)
    (this : ExceptionState n) (log : Log n) : Outcome (ExceptionState n × Log n) :=
  match throwExceptionHelper env T exc this log with
  | .ret (true, this1, log1) => .ret (this1.construct exc, log1)
  | .ret (false, this1, log1) => .ret (this1, log1)
  | .terminate => .terminate
  | .nullDeref => .nullDeref

/-- The search loop of `rethrow`, started on `tmpState`. -/
def rethrowLoop (this : ExceptionState n) : Chain n → Outcome (ExceptionState n)
  | [] => .terminate
  | tmpState :: up =>
    if tmpState.state = .HANDLETHROW then .ret this.setToRethrowingState
    else rethrowLoop this up

/-- Source function `rethrow()`. -/
def rethrow (this : ExceptionState n) (previousES : Chain n) : Outcome (ExceptionState n) :=
  if this.state = .HANDLETHROW then .ret this.setToThrowingState
  else rethrowLoop this previousES

/-- Source function `holdsExceptionOfTypeT<T>()`. -/
def holdsExceptionOfTypeT (env : TypeEnv) (T : CType) (this : ExceptionState n)
    (previousES : Chain n) : Outcome Bool :=
  let tmpState : Chain n :=
    if this.state = .RETHROW then getLatestHandlingExceptionState previousES
    else this :: previousES
  match tmpState with
  | [] => .nullDeref
  | frame :: _ => .ret (frame.typeId.do_catch env T)

/-- Source function `getExceptionReference<T>()`: returns the pointer and the new `this`. -/
def getExceptionReference (T : CType) (this : ExceptionState n) (previousES : Chain n) :
    Outcome (VoidPtr n × ExceptionState n) :=
  let r : Chain n × ExceptionState n :=
    if this.state = .RETHROW then
      (getLatestHandlingExceptionState previousES, this.setToHandleRethrowState)
    else (this.setToHandlingState :: previousES, this.setToHandlingState)
  match r.1 with
  | [] => .nullDeref
  | frame :: up =>
    if isPointer T then .ret (.storedIn frame.exceptionBuffer, r.2)
    else .ret (.bufferOf (Chain.address (frame :: up)), r.2)

end ExceptionState

/-! ## Scenario drivers -/

/-- Leaving the innermost scope: `~ExceptionState()` runs on the head of the chain and
the chain it stores in the current-frame slot is the new stack. -/
def exitScope {n : Nat} : Chain n → Log n → Outcome (Chain n × Log n)
  | [], log => .ret ([], log)
  | this :: previousES, log =>
    (this.destroy previousES log).bind fun d => .ret (d.current, d.log)

/-- Leaving `k` scopes, innermost first. -/
def unwind {n : Nat} : Nat → Chain n → Log n → Outcome (Chain n × Log n)
  | 0, stack, log => .ret (stack, log)
  | k + 1, stack, log => (exitScope stack log).bind fun r => unwind k r.1 r.2

/-- A buffer of four bytes holding `b0 b1 b2 b3`. -/
def buf4 (b0 b1 b2 b3 : Byte) : Buffer 4 := ⟨[b0, b1, b2, b3], rfl⟩

/-- A stack of one frame, just constructed, with a zeroed buffer of four bytes. -/
def rootStack : Chain 4 := ExceptionState.create (buf4 0 0 0 0) []

/-- The frame of `rootStack`. -/
def rootFrame : ExceptionState 4 :=
  { exceptionBuffer := buf4 0 0 0 0, typeId := InstanceType.clear, destruct := none,
    previousES := 0, state := .CLEAR }

/-- A frame just constructed inside `rootStack`. -/
def innerFrame : ExceptionState 4 :=
  { exceptionBuffer := buf4 0 0 0 0, typeId := InstanceType.clear, destruct := none,
    previousES := 1, state := .CLEAR }

/-- A frame just constructed inside `innerFrame`. -/
def innermostFrame : ExceptionState 4 :=
  { exceptionBuffer := buf4 0 0 0 0, typeId := InstanceType.clear, destruct := none,
    previousES := 2, state := .CLEAR }

/-- A frame in state `THROW` holding an `int` of value 42 (little endian). -/
def throwingFrame : ExceptionState 4 :=
  { exceptionBuffer := buf4 42 0 0 0, typeId := InstanceType.set tInt, destruct := some tInt,
    previousES := 1, state := .THROW }

/-- The root frame once an object of class 0 with bytes `1 2 3 4` was relocated into it. -/
def relocatedFrame : ExceptionState 4 :=
  { exceptionBuffer := buf4 1 2 3 4, typeId := InstanceType.set (tClass 0),
    destruct := some (tClass 0), previousES := 0, state := .THROW }

/-- An enclosing frame in state `HANDLETHROW` holding an object of class 2. -/
def handlingFrame : ExceptionState 4 :=
  { exceptionBuffer := buf4 7 7 7 7, typeId := InstanceType.set (tClass 2),
    destruct := some (tClass 2), previousES := 0, state := .HANDLETHROW }

/-- Some frame of the chain is in state `HANDLETHROW`. -/
def HasHandling {n : Nat} (c : Chain n) : Prop := ∃ p ∈ c, p.state = State.HANDLETHROW

/-- Every frame of the stack in state `RETHROW` has a frame in state `HANDLETHROW`
among the frames behind it. -/
def RethrowResolves {n : Nat} (stack : Chain n) : Prop :=
  ∀ pre f rest, stack = pre ++ f :: rest → f.state = State.RETHROW → HasHandling rest

/-- The frame stacks the generated code can produce: starting from the empty stack,
a frame is constructed on top of the current one, the top frame is destroyed, or one
of the four entry points is called on the top frame; a step is taken only when the
call returns. -/
inductive Reachable {n : Nat} (env : TypeEnv) : Chain n → Prop where
  | empty : Reachable env []
  | construct (garbage : Buffer n) (stack : Chain n) :
      Reachable env stack → Reachable env (ExceptionState.create garbage stack)
  | destroy (this : ExceptionState n) (previousES : Chain n) (log : Log n) (d : Destroyed n) :
      Reachable env (this :: previousES) → this.destroy previousES log = .ret d →
      Reachable env d.current
  | throwException (this : ExceptionState n) (previousES : Chain n) (T : CType) (exc : ExcArg)
      (log : Log n) (r : ExceptionState n × Log n) :
      Reachable env (this :: previousES) → this.throwException env T exc log = .ret r →
      Reachable env (r.1 :: previousES)
  | holdsExceptionOfTypeT (this : ExceptionState n) (previousES : Chain n) (T : CType)
      (b : Bool) :
      Reachable env (this :: previousES) →
      this.holdsExceptionOfTypeT env T previousES = .ret b →
      Reachable env (this :: previousES)
  | getExceptionReference (this : ExceptionState n) (previousES : Chain n) (T : CType)
      (r : VoidPtr n × ExceptionState n) :
      Reachable env (this :: previousES) → this.getExceptionReference T previousES = .ret r →
      Reachable env (r.2 :: previousES)
  | rethrow (this : ExceptionState n) (previousES : Chain n) (this1 : ExceptionState n) :
      Reachable env (this :: previousES) → this.rethrow previousES = .ret this1 →
      Reachable env (this1 :: previousES)

/-- A frame in state `RETHROW` constructed inside `handlingFrame`. -/
def rethrowingFrame : ExceptionState 4 :=
  { exceptionBuffer := buf4 0 0 0 0, typeId := InstanceType.clear, destruct := none,
    previousES := 1, state := .RETHROW }

/-- A root frame put in state `RETHROW` by the public `setToRethrowingState()`:
there is no frame behind it. -/
def orphanFrame : ExceptionState 4 :=
  { exceptionBuffer := buf4 0 0 0 0, typeId := InstanceType.clear, destruct := none,
    previousES := 0, state := .RETHROW }

/-- A root frame in state `THROW` holding a null `int*`. -/
def pointerFrame : ExceptionState 4 :=
  { exceptionBuffer := buf4 0 0 0 0, typeId := InstanceType.set tIntPtr,
    destruct := some tIntPtr, previousES := 0, state := .THROW }

/-- Every frame of the stack in state `CLEAR` has no recorded destructor and the
cleared descriptor: the identity of `void`, pointer depth 0, const mask 0. -/
def ClearOwnsNothing {n : Nat} (stack : Chain n) : Prop :=
  ∀ f ∈ stack, f.state = State.CLEAR →
    f.destruct = none ∧ f.typeId.typeId = BaseType.void ∧ f.typeId.ptrDepth = 0 ∧
      f.typeId.constMask = 0

/-- The destructor calls the frames `ms` have recorded for their own contents, made in
the order of the frames. -/
def ownDestructorCalls {n : Nat} (ms : Chain n) (log : Log n) : Log n :=
  ms.foldl (fun l m => m.callDestructIfSet l) log

/-- A frame constructed inside `handlingFrame` that is itself in state `HANDLETHROW`,
holding an `int` of value 42. -/
def innerHandlingFrame : ExceptionState 4 :=
  { exceptionBuffer := buf4 42 0 0 0, typeId := InstanceType.set tInt, destruct := some tInt,
    previousES := 1, state := .HANDLETHROW }

end SlimExcLib

/-! ## Lemmas on type descriptors -/

namespace SlimRTTI

theorem load_eq_some_iff (env : TypeEnv) (a b : TypeId) :
    env.load a = some b ↔ ∃ c d, a = .cls c ∧ b = .cls d ∧ env.firstBase c = some d := by
  cases a with
  | void => simp [TypeEnv.load]
  | nonclass k => simp [TypeEnv.load]
  | cls c =>
    simp only [TypeEnv.load, Option.map_eq_some', BaseType.cls.injEq]
    constructor
    · rintro ⟨d, hd, rfl⟩
      exact ⟨c, d, rfl, rfl, hd⟩
    · rintro ⟨c2, d, rfl, rfl, hd⟩
      exact ⟨d, hd, rfl⟩

/-- The loop started on a class node with enough fuel finds the target exactly when the
target is that node or lies above it in the chain. -/
theorem walk_some_iff (env : TypeEnv) (t : TypeId) :
    ∀ (fuel b : Nat), b + 1 ≤ fuel →
      (InstanceType.walk env t fuel (some (.cls b)) = true ↔
        Relation.ReflTransGen (ParentOf env) (.cls b) t) := by
  intro fuel
  induction fuel with
  | zero => intro b hb; omega
  | succ fuel ih =>
    intro b hb
    rw [Relation.ReflTransGen.cases_head_iff]
    by_cases ht : t = .cls b
    · simp [InstanceType.walk, ht]
    · have ht2 : ¬ (BaseType.cls b = t) := fun h => ht h.symm
      simp only [InstanceType.walk, ht, if_false, ht2, false_or]
      cases hl : env.firstBase b with
      | none =>
        have : env.load (.cls b) = none := by simp [TypeEnv.load, hl]
        simp only [this, InstanceType.walk, Bool.false_eq_true, false_iff]
        rintro ⟨c, hc, -⟩
        simp [ParentOf, this] at hc
      | some d =>
        have hload : env.load (.cls b) = some (.cls d) := by simp [TypeEnv.load, hl]
        have hd : d < b := env.base_before b d hl
        rw [hload, ih d (by omega)]
        constructor
        · intro h
          exact ⟨.cls d, hload, h⟩
        · rintro ⟨c, hc, h⟩
          have : c = .cls d := by
            simp only [ParentOf, hload, Option.some.injEq] at hc
            exact hc.symm
          rw [← this]
          exact h

/-- The fuel given by `chainBound` never runs out: any larger fuel gives the same
answer. -/
theorem walk_fuel_enough (env : TypeEnv) (t : TypeId) (fuel b : Nat) (h : b + 1 ≤ fuel) :
    InstanceType.walk env t fuel (some (.cls b)) =
      InstanceType.walk env t (b + 1) (some (.cls b)) := by
  have h1 := walk_some_iff env t fuel b h
  have h2 := walk_some_iff env t (b + 1) b le_rfl
  rw [Bool.eq_iff_iff, h1, h2]

/-- The loop started on the parent of `a`, with the fuel the callers pass, finds `t`
exactly when `t` is a strict ancestor of `a`. -/
theorem walk_load_iff (env : TypeEnv) (t a : TypeId) :
    InstanceType.walk env t (InstanceType.chainBound a) (env.load a) = true ↔
      IsAncestor env t a := by
  unfold IsAncestor
  rw [Relation.TransGen.head'_iff]
  cases hl : env.load a with
  | none =>
    simp only [InstanceType.walk, Bool.false_eq_true, false_iff]
    rintro ⟨c, hc, -⟩
    simp [ParentOf, hl] at hc
  | some p =>
    obtain ⟨c, d, rfl, rfl, hcd⟩ := (load_eq_some_iff env a p).1 hl
    have hd : d < c := env.base_before c d hcd
    rw [show InstanceType.chainBound (.cls c) = c + 1 from rfl, walk_some_iff env t (c + 1) d (by omega)]
    constructor
    · intro h
      exact ⟨.cls d, hl, h⟩
    · rintro ⟨x, hx, h⟩
      have : x = .cls d := by
        simp only [ParentOf, hl, Option.some.injEq] at hx
        exact hx.symm
      rw [← this]
      exact h

/-- Only a class has descendants. -/
theorem isAncestor_is_class (env : TypeEnv) (u t : TypeId) (h : IsAncestor env u t) :
    ∃ c, u = .cls c := by
  unfold IsAncestor at h
  rw [Relation.TransGen.tail'_iff] at h
  obtain ⟨x, -, hx⟩ := h
  obtain ⟨c, d, -, rfl, -⟩ := (load_eq_some_iff env x u).1 hx
  exact ⟨d, rfl⟩

theorem isDerivedOf_iff (env : TypeEnv) (self : InstanceType) (T : CType) :
    self.isDerivedOf env T = true ↔ IsAncestor env (getTypeId T) self.typeId := by
  unfold InstanceType.isDerivedOf
  by_cases hc : isPotentialBasetype T = true
  · simp only [hc, if_true]
    exact walk_load_iff env _ _
  · simp only [hc, Bool.false_eq_true, if_false, false_iff]
    intro h
    obtain ⟨c, hcls⟩ := isAncestor_is_class env _ _ h
    apply hc
    unfold isPotentialBasetype
    unfold getTypeId at hcls
    rw [hcls]

theorem isEqualTo_iff (self : InstanceType) (T : CType) :
    self.isEqualTo T = true ↔ getTypeId T = self.typeId := by
  unfold InstanceType.isEqualTo
  split_ifs with h <;> simp [h]

theorem getPointerLevelObj_eq (p : ObjType) : getPointerLevelObj p = p.depth % 256 := by
  induction p with
  | base c v b => rfl
  | ptr c v p ih => simp only [getPointerLevelObj, ObjType.depth, ih]; omega

theorem getPointerLevel_of_le (T : CType) (h : T.depth ≤ 7) : getPointerLevel T = T.depth := by
  unfold getPointerLevel CType.depth at *
  rw [getPointerLevelObj_eq]
  omega

theorem getConstMaskObj_lt (p : ObjType) : getConstMaskObj p < 256 := by
  cases p with
  | base c v b => cases c <;> simp [getConstMaskObj]
  | ptr c v p => cases c <;> simp only [getConstMaskObj] <;> exact Nat.mod_lt _ (by norm_num)

/-- Bit `i` of the mask is the constness of level `i`, for the eight levels a
`uint8_t` has room for. -/
theorem getConstMaskObj_testBit (p : ObjType) :
    ∀ i, (getConstMaskObj p).testBit i = (decide (i < 8) && p.constAt i) := by
  induction p with
  | base c v b =>
    intro i
    cases i with
    | zero => cases c <;> simp [getConstMaskObj, ObjType.constAt]
    | succ i => cases c <;> simp [getConstMaskObj, ObjType.constAt, Nat.testBit_succ]
  | ptr c v p ih =>
    intro i
    have hm : getConstMaskObj (.ptr c v p) =
        ((if c then 1 else 0) ||| (getConstMaskObj p <<< 1)) % 2 ^ 8 := by
      cases c
      · show (getConstMaskObj p <<< 1) % 256 = (0 ||| (getConstMaskObj p <<< 1)) % 256
        rw [Nat.zero_or]
      · rfl
    rw [hm, Nat.testBit_mod_two_pow, Nat.testBit_or, Nat.testBit_shiftLeft]
    cases i with
    | zero => cases c <;> simp [ObjType.constAt]
    | succ i =>
      have := ih i
      have hi : (decide (i + 1 < 8) && (decide (i < 8) && p.constAt i)) =
          (decide (i + 1 < 8) && p.constAt i) := by
        by_cases h : i + 1 < 8
        · have h2 : i < 8 := by omega
          simp [h, h2]
        · simp [h]
      cases c <;> simp [ObjType.constAt, Nat.testBit_succ, this, hi]

theorem constAt_of_depth_lt (p : ObjType) : ∀ i, p.depth < i → p.constAt i = false := by
  induction p with
  | base c v b =>
    intro i hi
    cases i with
    | zero => simp [ObjType.depth] at hi
    | succ i => rfl
  | ptr c v p ih =>
    intro i hi
    cases i with
    | zero => simp at hi
    | succ i =>
      simp only [ObjType.depth, add_lt_add_iff_right] at hi
      simp only [ObjType.constAt]
      exact ih i hi

/-- The test `(~m & k) != 0` on two `uint8_t` masks, bit by bit. -/
theorem inverted_and_eq_zero_iff (a b : Nat) (ha : a < 256) :
    ((255 - a) &&& b = 0) ↔ ∀ i, i < 8 → b.testBit i = true → a.testBit i = true := by
  have h255 : 255 - a = 2 ^ 8 - (a + 1) := by omega
  have ha2 : a < 2 ^ 8 := by omega
  constructor
  · intro h i hi hb
    have := congrArg (fun x => Nat.testBit x i) h
    simp only [Nat.testBit_and, h255, Nat.testBit_two_pow_sub_succ ha2, Nat.zero_testBit, hi, hb] at this
    simpa using this
  · intro h
    apply Nat.eq_of_testBit_eq
    intro i
    simp only [Nat.testBit_and, h255, Nat.testBit_two_pow_sub_succ ha2, Nat.zero_testBit]
    by_cases hi : i < 8
    · by_cases hb : b.testBit i = true
      · simp [h i hi hb, hi, hb]
      · simp [hb]
    · simp [hi]

/-- The mask test of `areQualifiersCatchCompatible` passes exactly when no level among
the first eight is const in the thrown type and not const in the handler type. -/
theorem mask_test_iff (X T : CType) :
    ((255 - getConstMask T) &&& getConstMask X = 0) ↔
      ∀ i, i < 8 → X.constAt i = true → T.constAt i = true := by
  unfold getConstMask CType.constAt
  rw [inverted_and_eq_zero_iff _ _ (getConstMaskObj_lt T.obj)]
  constructor
  · intro h i hi hx
    have := h i hi (by rw [getConstMaskObj_testBit]; simp [hi, hx])
    rw [getConstMaskObj_testBit] at this
    simpa [hi] using this
  · intro h i hi hx
    rw [getConstMaskObj_testBit] at hx ⊢
    simp only [hi, decide_True, Bool.true_and] at hx ⊢
    exact h i hi hx

theorem areQualifiersCatchCompatible_of_onlyAddsConst (X T : CType) (h : OnlyAddsConst X T) :
    (InstanceType.set X).areQualifiersCatchCompatible T = true := by
  unfold InstanceType.areQualifiersCatchCompatible
  have : (255 - getConstMask T) &&& getConstMask X = 0 :=
    (mask_test_iff X T).2 (fun i _ hx => h i hx)
  simp [InstanceType.set, this]

theorem isPtrDepthCatchCompatible_iff (X T : CType) :
    (InstanceType.set X).isPtrDepthCatchCompatible T = true ↔
      getPointerLevel X = getPointerLevel T := by
  simp [InstanceType.isPtrDepthCatchCompatible, InstanceType.set]

theorem getPointerLevel_eq_of_depth_eq (X T : CType) (h : X.depth = T.depth) :
    getPointerLevel X = getPointerLevel T := by
  unfold getPointerLevel CType.depth at *
  rw [getPointerLevelObj_eq, getPointerLevelObj_eq, h]

/-- A descriptor matches the type it was set to. -/
theorem do_catch_set_self (env : TypeEnv) (X : CType) :
    (InstanceType.set X).do_catch env X = true := by
  have h1 := (isPtrDepthCatchCompatible_iff X X).2 rfl
  have h2 := areQualifiersCatchCompatible_of_onlyAddsConst X X (fun _ h => h)
  have h3 : (InstanceType.set X).isEqualTo X = true := by
    rw [isEqualTo_iff]; rfl
  simp [InstanceType.do_catch, h1, h2, h3]

theorem chainBound_lt_of_parentOf (env : TypeEnv) (a b : TypeId) (h : ParentOf env a b) :
    InstanceType.chainBound b < InstanceType.chainBound a := by
  obtain ⟨c, d, rfl, rfl, hcd⟩ := (load_eq_some_iff env a b).1 h
  have := env.base_before c d hcd
  simp only [InstanceType.chainBound]
  omega

/-- An ancestor was defined before its descendants. -/
theorem chainBound_lt_of_isAncestor (env : TypeEnv) (u t : TypeId) (h : IsAncestor env u t) :
    InstanceType.chainBound u < InstanceType.chainBound t := by
  unfold IsAncestor at h
  induction h with
  | single hab => exact chainBound_lt_of_parentOf env _ _ hab
  | tail _ hbc ih => exact lt_trans (chainBound_lt_of_parentOf env _ _ hbc) ih

/-- No identity is its own strict ancestor. -/
theorem not_isAncestor_self (env : TypeEnv) (t : TypeId) : ¬ IsAncestor env t t := by
  intro h
  exact lt_irrefl _ (chainBound_lt_of_isAncestor env t t h)

theorem isBaseOf_iff (env : TypeEnv) (self : InstanceType) (T : CType) :
    self.isBaseOf env T = true ↔ IsAncestor env self.typeId (getTypeId T) :=
  walk_load_iff env _ _

/-- An unqualified class type has no const level. -/
theorem tClass_constAt (c i : Nat) : (tClass c).constAt i = false := by
  cases i <;> rfl

/-- The answer of `do_catch` for two unqualified class types. -/
theorem do_catch_tClass_iff (env : TypeEnv) (d u : Nat) :
    (InstanceType.set (tClass d)).do_catch env (tClass u) = true ↔
      (u = d ∨ IsAncestor env (.cls u) (.cls d)) := by
  have h1 := (isPtrDepthCatchCompatible_iff (tClass d) (tClass u)).2 rfl
  have h2 := areQualifiersCatchCompatible_of_onlyAddsConst (tClass d) (tClass u)
    (fun i h => by rw [tClass_constAt] at h; exact absurd h (by simp))
  have h3 : (InstanceType.set (tClass d)).isEqualTo (tClass u) = true ↔ u = d := by
    rw [isEqualTo_iff]
    simp [getTypeId, tClass, ObjType.stripped, InstanceType.set]
  have h4 : (InstanceType.set (tClass d)).isDerivedOf env (tClass u) = true ↔
      IsAncestor env (.cls u) (.cls d) :=
    isDerivedOf_iff env (InstanceType.set (tClass d)) (tClass u)
  rw [← h3, ← h4]
  simp [InstanceType.do_catch, h1, h2]

/-- What `do_catch` tests, on a descriptor set to `X`. -/
theorem do_catch_set_iff (env : TypeEnv) (X T : CType) :
    (InstanceType.set X).do_catch env T = true ↔
      (getPointerLevel X = getPointerLevel T ∧
        (0 < getPointerLevel X → (255 - getConstMask T) &&& getConstMask X = 0) ∧
        (getTypeId T = getTypeId X ∨ IsAncestor env (getTypeId T) (getTypeId X))) := by
  have h1 := isPtrDepthCatchCompatible_iff X T
  have h3 : (InstanceType.set X).isEqualTo T = true ↔ getTypeId T = getTypeId X :=
    isEqualTo_iff (InstanceType.set X) T
  have h4 : (InstanceType.set X).isDerivedOf env T = true ↔
      IsAncestor env (getTypeId T) (getTypeId X) := isDerivedOf_iff env (InstanceType.set X) T
  have h2 : (InstanceType.set X).areQualifiersCatchCompatible T = true ↔
      (0 < getPointerLevel X → (255 - getConstMask T) &&& getConstMask X = 0) := by
    by_cases hp : 0 < getPointerLevel X
    · simp [InstanceType.areQualifiersCatchCompatible, InstanceType.set, hp]
    · simp [InstanceType.areQualifiersCatchCompatible, InstanceType.set, hp]
  rw [← h1, ← h2, ← h3, ← h4]
  by_cases a : (InstanceType.set X).isPtrDepthCatchCompatible T = true <;>
    by_cases b : (InstanceType.set X).areQualifiersCatchCompatible T = true <;>
      simp [InstanceType.do_catch, a, b]

/-- The mask test composes: const added twice is const added. -/
theorem mask_test_trans (a b c : Nat) (hb : b < 256) (hc : c < 256)
    (h1 : (255 - b) &&& a = 0) (h2 : (255 - c) &&& b = 0) : (255 - c) &&& a = 0 := by
  rw [inverted_and_eq_zero_iff _ _ hb] at h1
  rw [inverted_and_eq_zero_iff _ _ hc] at h2
  rw [inverted_and_eq_zero_iff _ _ hc]
  intro i hi ha
  exact h2 i hi (h1 i hi ha)

/-- The cleared descriptor equals no type other than `void` and derives from none. -/
theorem clear_matches_nothing (env : TypeEnv) (T : CType) (h : getTypeId T ≠ BaseType.void) :
    InstanceType.clear.isEqualTo T = false ∧ InstanceType.clear.isDerivedOf env T = false ∧
      InstanceType.clear.do_catch env T = false := by
  have h1 : InstanceType.clear.isEqualTo T = false := by
    rw [Bool.eq_false_iff, Ne, isEqualTo_iff]
    exact h
  have h2 : InstanceType.clear.isDerivedOf env T = false := by
    unfold InstanceType.isDerivedOf
    split_ifs <;> rfl
  refine ⟨h1, h2, ?_⟩
  unfold InstanceType.do_catch
  simp [h1, h2]

end SlimRTTI

/-! ## Lemmas on frames -/

namespace SlimExcLib

variable {n : Nat}

theorem Buffer.eq_of_bytes_eq (a b : Buffer n) (h : a.bytes = b.bytes) : a = b := by
  cases a; cases b; cases h; rfl

theorem set_take_drop_step (src dst : List Byte) (k : Nat) (hs : src.length = n)
    (hd : dst.length = n) (hk : k < n) :
    (src.take k ++ dst.drop k).set k (src.getD k 0) = src.take (k + 1) ++ dst.drop (k + 1) := by
  apply List.ext_getElem?
  intro i
  rw [List.getElem?_set]
  simp only [List.length_append, List.length_take, List.length_drop, List.getElem?_append,
    List.getElem?_take, List.getElem?_drop, List.getD_eq_getElem?_getD]
  have h1 : min k src.length = k := by omega
  have h2 : min (k + 1) src.length = k + 1 := by omega
  rw [h1, h2]
  by_cases hik : k = i
  · subst hik
    have : k < k + (dst.length - k) := by omega
    simp [this, hs, hk, List.getElem?_eq_getElem]
  · simp only [hik, if_false]
    by_cases hlt : i < k
    · have : i < k + 1 := by omega
      simp [hlt, this]
    · have h3 : ¬ i < k + 1 := by omega
      simp only [hlt, h3, if_false]
      congr 1
      omega

/-- After `k` rounds of the copy loop the first `k` bytes are those of the source. -/
theorem Buffer.copyLoop_prefix (src dst : Buffer n) :
    ∀ k, k ≤ n →
      ((List.range k).foldl (fun d i => Buffer.copyByte src d i) dst).bytes =
        src.bytes.take k ++ dst.bytes.drop k := by
  intro k
  induction k with
  | zero => intro _; simp
  | succ k ih =>
    intro hk
    rw [List.range_succ, List.foldl_append]
    simp only [List.foldl_cons, List.foldl_nil]
    show (((List.range k).foldl (fun d i => Buffer.copyByte src d i) dst).bytes).set k
      (src.bytes.getD k 0) = _
    rw [ih (by omega)]
    exact set_take_drop_step src.bytes dst.bytes k src.size_eq dst.size_eq (by omega)

/-- The copy loop of `takeInstance` leaves the destination equal to the source. -/
theorem Buffer.copyLoop_eq (src dst : Buffer n) : Buffer.copyLoop src dst = src := by
  apply Buffer.eq_of_bytes_eq
  unfold Buffer.copyLoop
  rw [Buffer.copyLoop_prefix src dst n le_rfl]
  have h1 := src.size_eq
  have h2 := dst.size_eq
  rw [List.take_of_length_le (by omega), List.drop_of_length_le (by omega), List.append_nil]

/-- An object that fits is found at the start of the buffer after placement new. -/
theorem Buffer.store_take (buf : Buffer n) (obj : List Byte) (h : obj.length ≤ n) :
    (buf.store obj).bytes.take obj.length = obj := by
  simp only [Buffer.store]
  rw [List.take_take, min_eq_left h, List.take_left']
  rfl

namespace ExceptionState

/-- What `takeInstance` leaves in the two frames: the taker holds all of the source,
the source is emptied. -/
theorem takeInstance_eq (this source : ExceptionState n) :
    this.takeInstance source =
      ({ source with previousES := this.previousES },
        { source with destruct := none, typeId := InstanceType.clear, state := .CLEAR }) := by
  simp only [takeInstance, Buffer.copyLoop_eq]

theorem isExceptionThrowing_iff (this : ExceptionState n) :
    this.isExceptionThrowing = true ↔ (this.state = .THROW ∨ this.state = .RETHROW) := by
  unfold isExceptionThrowing
  cases this.state <;> simp [State.toNat]

theorem isExceptionThrowing_eq_false (this : ExceptionState n) (h1 : this.state ≠ .THROW)
    (h2 : this.state ≠ .RETHROW) : this.isExceptionThrowing = false := by
  rw [Bool.eq_false_iff]
  intro h
  rcases (isExceptionThrowing_iff this).1 h with h | h
  · exact h1 h
  · exact h2 h

/-- What `propagateUp` does when the frame is `THROW` and the previous frame exists
and is not throwing: it relocates. -/
theorem propagateUp_relocates (this prev : ExceptionState n) (up : Chain n) (log : Log n)
    (h : this.state = .THROW) (hp : prev.isExceptionThrowing = false) :
    this.propagateUp (prev :: up) log =
      .ret ({ this with destruct := none, typeId := InstanceType.clear, state := .CLEAR },
        { this with previousES := prev.previousES } :: up, prev.callDestructIfSet log) := by
  simp [propagateUp, hp, isExceptionInState, h, takeInstance_eq]

/-- What a throw of an object outside the buffer leaves in a frame that may throw. -/
theorem throwException_object (env : TypeEnv) (T : CType) (bytes : List Byte)
    (this : ExceptionState n) (log : Log n) (ht : this.isExceptionThrowing = false) :
    this.throwException env T (.object bytes) log =
      .ret ({ exceptionBuffer := this.exceptionBuffer.store bytes,
              typeId := InstanceType.set T,
              destruct := if env.isDestructible T = true then some T else none,
              previousES := this.previousES,
              state := .THROW }, this.callDestructIfSet log) := by
  by_cases hd : env.isDestructible T = true <;>
    simp [throwException, throwExceptionHelper, ht, compareAdresses, construct, hd]

theorem callDestructIfSet_none (this : ExceptionState n) (log : Log n)
    (h : this.destruct = none) : this.callDestructIfSet log = log := by
  simp [callDestructIfSet, h]

theorem callDestructIfSet_some (this : ExceptionState n) (log : Log n) (d : CType)
    (h : this.destruct = some d) :
    this.callDestructIfSet log = log ++ [⟨d, this.exceptionBuffer⟩] := by
  simp [callDestructIfSet, h]

/-- What `~ExceptionState()` does on a frame in state `THROW` whose previous frame
exists and is not throwing. -/
theorem destroy_relocates (this prev : ExceptionState n) (up : Chain n) (log : Log n)
    (h : this.state = .THROW) (hp : prev.isExceptionThrowing = false) :
    this.destroy (prev :: up) log =
      .ret ⟨{ this with destruct := none, typeId := InstanceType.clear, state := .CLEAR },
        { this with previousES := prev.previousES } :: up, prev.callDestructIfSet log⟩ := by
  have ht : this.isExceptionThrowing = true := (isExceptionThrowing_iff this).2 (Or.inl h)
  simp [destroy, ht, propagateUp_relocates this prev up log h hp]

/-- What `getExceptionReference` does on a frame that is not `RETHROW`. -/
theorem getExceptionReference_own (T : CType) (this : ExceptionState n) (up : Chain n)
    (h : this.state ≠ .RETHROW) :
    this.getExceptionReference T up =
      .ret (if isPointer T = true then VoidPtr.storedIn this.exceptionBuffer
            else VoidPtr.bufferOf (Chain.address (this.setToHandlingState :: up)),
        this.setToHandlingState) := by
  by_cases hp : isPointer T = true <;>
    simp [getExceptionReference, h, hp, setToHandlingState]

end ExceptionState

/-- A frame in state `THROW` below `ps.length` frames in state `CLEAR` is carried
through that many scope exits: buffer, descriptor, destructor and state arrive in the
outermost of those frames; destructors are only called for what those frames held. -/
theorem unwind_relocates (ps : Chain n) :
    ∀ (G : ExceptionState n) (rest : Chain n) (log : Log n), G.state = .THROW →
      (∀ p ∈ ps, p.state = .CLEAR) →
      ∃ G1 log1, unwind ps.length (G :: ps ++ rest) log = .ret (G1 :: rest, log1) ∧
        G1.exceptionBuffer = G.exceptionBuffer ∧ G1.typeId = G.typeId ∧
        G1.destruct = G.destruct ∧ G1.state = .THROW ∧
        (∀ h : ps ≠ [], G1.previousES = (ps.getLast h).previousES) ∧
        ((∀ p ∈ ps, p.destruct = none) → log1 = log) := by
  induction ps with
  | nil =>
    intro G rest log hG _
    exact ⟨G, log, rfl, rfl, rfl, rfl, hG, fun h => absurd rfl h, fun _ => rfl⟩
  | cons p ps ih =>
    intro G rest log hG hclear
    have hp : p.isExceptionThrowing = false :=
      ExceptionState.isExceptionThrowing_eq_false p
        (by rw [hclear p (List.mem_cons_self _ _)]; decide)
        (by rw [hclear p (List.mem_cons_self _ _)]; decide)
    obtain ⟨G1, log1, hrun, hb, ht, hd, hs, hprev, hlog⟩ :=
      ih { G with previousES := p.previousES } rest (p.callDestructIfSet log) hG
        (fun q hq => hclear q (List.mem_cons_of_mem _ hq))
    refine ⟨G1, log1, ?_, hb, ht, hd, hs, ?_, ?_⟩
    · simp only [List.length_cons, unwind, List.cons_append, exitScope,
        ExceptionState.destroy_relocates G p (ps ++ rest) log hG hp, Outcome.bind]
      exact hrun
    · intro _
      by_cases hps : ps = []
      · subst hps
        simp only [List.length_nil, unwind, Outcome.ret.injEq, Prod.mk.injEq] at hrun
        have h1 : { G with previousES := p.previousES } = G1 := by
          have := hrun.1
          simpa using this
        rw [← h1]
        rfl
      · rw [List.getLast_cons hps]
        exact hprev hps
    · intro hnone
      rw [hlog (fun q hq => hnone q (List.mem_cons_of_mem _ hq)),
        ExceptionState.callDestructIfSet_none p log (hnone p (List.mem_cons_self _ _))]

/-- The search of `getLatestHandlingExceptionState` stops at the first frame in state
`HANDLETHROW`. -/
theorem findHandling_append (pre : Chain n) (A : ExceptionState n) (up : Chain n)
    (hpre : ∀ p ∈ pre, p.state ≠ .HANDLETHROW) (hA : A.state = .HANDLETHROW) :
    ExceptionState.findHandling (pre ++ A :: up) = A :: up := by
  induction pre with
  | nil => simp [ExceptionState.findHandling, hA]
  | cons p pre ih =>
    have hp := hpre p (List.mem_cons_self _ _)
    simp only [List.cons_append, ExceptionState.findHandling, hp, if_false]
    exact ih (fun q hq => hpre q (List.mem_cons_of_mem _ hq))

theorem findHandling_eq_nil (c : Chain n) (h : ∀ p ∈ c, p.state ≠ .HANDLETHROW) :
    ExceptionState.findHandling c = [] := by
  induction c with
  | nil => rfl
  | cons p c ih =>
    have hp := h p (List.mem_cons_self _ _)
    simp only [ExceptionState.findHandling, hp, if_false]
    exact ih (fun q hq => h q (List.mem_cons_of_mem _ hq))

/-- A chain with a frame in state `HANDLETHROW` splits at the first such frame. -/
theorem hasHandling_split (c : Chain n) (h : HasHandling c) :
    ∃ pre A up, c = pre ++ A :: up ∧ (∀ p ∈ pre, p.state ≠ .HANDLETHROW) ∧
      A.state = .HANDLETHROW := by
  induction c with
  | nil =>
    obtain ⟨p, hp, -⟩ := h
    simp at hp
  | cons q c ih =>
    by_cases hq : q.state = .HANDLETHROW
    · exact ⟨[], q, c, rfl, fun p hp => by simp at hp, hq⟩
    · obtain ⟨p, hp, hps⟩ := h
      have hpc : p ∈ c := by
        rcases List.mem_cons.1 hp with h1 | h1
        · rw [h1] at hps; exact absurd hps hq
        · exact h1
      obtain ⟨pre, A, up, hc, hpre, hA⟩ := ih ⟨p, hpc, hps⟩
      refine ⟨q :: pre, A, up, by rw [hc]; rfl, ?_, hA⟩
      intro x hx
      rcases List.mem_cons.1 hx with h1 | h1
      · rw [h1]; exact hq
      · exact hpre x h1

theorem findHandling_ne_nil (c : Chain n) (h : HasHandling c) :
    ∃ A up, ExceptionState.findHandling c = A :: up := by
  obtain ⟨pre, A, up, hc, hpre, hA⟩ := hasHandling_split c h
  exact ⟨A, up, by rw [hc]; exact findHandling_append pre A up hpre hA⟩

theorem rethrowLoop_of_hasHandling (this : ExceptionState n) (c : Chain n)
    (h : HasHandling c) :
    ExceptionState.rethrowLoop this c = .ret this.setToRethrowingState := by
  induction c with
  | nil =>
    obtain ⟨p, hp, -⟩ := h
    simp at hp
  | cons q c ih =>
    by_cases hq : q.state = .HANDLETHROW
    · simp [ExceptionState.rethrowLoop, hq]
    · simp only [ExceptionState.rethrowLoop, hq, if_false]
      obtain ⟨p, hp, hps⟩ := h
      rcases List.mem_cons.1 hp with h1 | h1
      · rw [h1] at hps; exact absurd hps hq
      · exact ih ⟨p, h1, hps⟩

theorem rethrowLoop_of_no_handling (this : ExceptionState n) (c : Chain n)
    (h : ∀ p ∈ c, p.state ≠ .HANDLETHROW) :
    ExceptionState.rethrowLoop this c = .terminate := by
  induction c with
  | nil => rfl
  | cons q c ih =>
    have hq := h q (List.mem_cons_self _ _)
    simp only [ExceptionState.rethrowLoop, hq, if_false]
    exact ih (fun p hp => h p (List.mem_cons_of_mem _ hp))

theorem hasHandling_or_none (c : Chain n) :
    HasHandling c ∨ ∀ p ∈ c, p.state ≠ .HANDLETHROW := by
  by_cases h : HasHandling c
  · exact Or.inl h
  · right
    intro p hp hs
    exact h ⟨p, hp, hs⟩

/-- The invariant on a stack, frame by frame. -/
theorem rethrowResolves_cons (f : ExceptionState n) (rest : Chain n) :
    RethrowResolves (f :: rest) ↔
      ((f.state = .RETHROW → HasHandling rest) ∧ RethrowResolves rest) := by
  constructor
  · intro h
    refine ⟨fun hf => h [] f rest rfl hf, ?_⟩
    intro pre g rest2 hst hg
    exact h (f :: pre) g rest2 (by rw [hst]; rfl) hg
  · rintro ⟨h1, h2⟩ pre g rest2 hst hg
    cases pre with
    | nil =>
      simp only [List.nil_append, List.cons.injEq] at hst
      obtain ⟨rfl, rfl⟩ := hst
      exact h1 hg
    | cons x pre =>
      simp only [List.cons_append, List.cons.injEq] at hst
      exact h2 pre g rest2 hst.2 hg

theorem rethrowResolves_nil : RethrowResolves ([] : Chain n) := by
  intro pre f rest h
  simp at h

theorem throwException_ret_state (env : TypeEnv) (T : CType) (exc : ExcArg)
    (this : ExceptionState n) (log : Log n) (r : ExceptionState n × Log n)
    (h : this.throwException env T exc log = .ret r) : r.1.state = .THROW := by
  by_cases ht : this.isExceptionThrowing = true
  · simp [ExceptionState.throwException, ExceptionState.throwExceptionHelper, ht] at h
  · cases exc with
    | ownBuffer =>
      simp [ExceptionState.throwException, ExceptionState.throwExceptionHelper, ht,
        ExceptionState.compareAdresses] at h
      rw [← h]
      rfl
    | object bytes =>
      have ht2 : this.isExceptionThrowing = false := by simpa using ht
      rw [ExceptionState.throwException_object env T bytes this log ht2] at h
      simp only [Outcome.ret.injEq] at h
      rw [← h]

theorem getExceptionReference_ret_state (T : CType) (this : ExceptionState n)
    (previousES : Chain n) (r : VoidPtr n × ExceptionState n)
    (h : this.getExceptionReference T previousES = .ret r) : r.2.state ≠ .RETHROW := by
  unfold ExceptionState.getExceptionReference at h
  by_cases hs : this.state = .RETHROW
  · simp only [hs, if_true] at h
    cases hf : ExceptionState.getLatestHandlingExceptionState previousES with
    | nil => simp [hf] at h
    | cons A up =>
      simp only [hf] at h
      split_ifs at h <;>
        · simp only [Outcome.ret.injEq] at h
          rw [← h]
          simp [ExceptionState.setToHandleRethrowState]
  · simp only [hs, if_false] at h
    split_ifs at h <;>
      · simp only [Outcome.ret.injEq] at h
        rw [← h]
        simp [ExceptionState.setToHandlingState]

theorem rethrow_ret_state (this : ExceptionState n) (previousES : Chain n)
    (this1 : ExceptionState n) (h : this.rethrow previousES = .ret this1) :
    this1.state = .RETHROW → HasHandling previousES := by
  unfold ExceptionState.rethrow at h
  by_cases hs : this.state = .HANDLETHROW
  · simp only [hs, if_true, Outcome.ret.injEq] at h
    rw [← h]
    intro h2
    simp [ExceptionState.setToThrowingState] at h2
  · simp only [hs, if_false] at h
    intro _
    rcases hasHandling_or_none previousES with hh | hn
    · exact hh
    · rw [rethrowLoop_of_no_handling this previousES hn] at h
      cases h

/-- Destroying the top frame keeps the invariant on the frames that stay. -/
theorem destroy_rethrowResolves (this : ExceptionState n) (previousES : Chain n)
    (log : Log n) (d : Destroyed n) (hinv : RethrowResolves (this :: previousES))
    (h : this.destroy previousES log = .ret d) : RethrowResolves d.current := by
  obtain ⟨hthis, hprev⟩ := (rethrowResolves_cons this previousES).1 hinv
  unfold ExceptionState.destroy at h
  by_cases ht : this.isExceptionThrowing = true
  · simp only [ht, if_true] at h
    cases previousES with
    | nil => simp [ExceptionState.propagateUp] at h
    | cons p up =>
      obtain ⟨hp, hup⟩ := (rethrowResolves_cons p up).1 hprev
      by_cases hpt : p.isExceptionThrowing = true
      · simp [ExceptionState.propagateUp, hpt] at h
      · by_cases hsc : (this.isExceptionInState .RETHROW &&
            p.isExceptionInState .HANDLETHROW) = true
        · simp only [ExceptionState.propagateUp, hpt, hsc, if_true, Bool.false_eq_true,
            if_false, Outcome.ret.injEq] at h
          rw [← h]
          rw [rethrowResolves_cons]
          exact ⟨fun h2 => by simp [ExceptionState.setToThrowingState] at h2, hup⟩
        · simp only [ExceptionState.propagateUp, hpt, hsc, Bool.false_eq_true, if_false,
            Outcome.ret.injEq, ExceptionState.takeInstance_eq] at h
          rw [← h]
          rw [rethrowResolves_cons]
          refine ⟨?_, hup⟩
          intro hst
          have hst2 : this.state = .RETHROW := hst
          obtain ⟨q, hq, hqs⟩ := hthis hst2
          rcases List.mem_cons.1 hq with h1 | h1
          · exfalso
            apply hsc
            rw [h1] at hqs
            simp [ExceptionState.isExceptionInState, hst2, hqs]
          · exact ⟨q, h1, hqs⟩
  · simp only [ht, Bool.false_eq_true, if_false, Outcome.ret.injEq] at h
    rw [← h]
    exact hprev

/-- Every reachable stack satisfies the invariant. -/
theorem reachable_rethrowResolves (env : TypeEnv) (stack : Chain n)
    (h : Reachable env stack) : RethrowResolves stack := by
  induction h with
  | empty => exact rethrowResolves_nil
  | construct garbage stack _ ih =>
    unfold ExceptionState.create
    rw [rethrowResolves_cons]
    exact ⟨fun h2 => by simp at h2, ih⟩
  | destroy this previousES log d _ hd ih => exact destroy_rethrowResolves this previousES log d ih hd
  | throwException this previousES T exc log r _ hr ih =>
    rw [rethrowResolves_cons]
    refine ⟨fun h2 => ?_, ((rethrowResolves_cons this previousES).1 ih).2⟩
    rw [throwException_ret_state env T exc this log r hr] at h2
    cases h2
  | holdsExceptionOfTypeT this previousES T b _ _ ih => exact ih
  | getExceptionReference this previousES T r _ hr ih =>
    rw [rethrowResolves_cons]
    exact ⟨fun h2 => absurd h2 (getExceptionReference_ret_state T this previousES r hr),
      ((rethrowResolves_cons this previousES).1 ih).2⟩
  | rethrow this previousES this1 _ hr ih =>
    rw [rethrowResolves_cons]
    exact ⟨rethrow_ret_state this previousES this1 hr,
      ((rethrowResolves_cons this previousES).1 ih).2⟩

theorem clearOwnsNothing_cons (f : ExceptionState n) (rest : Chain n) :
    ClearOwnsNothing (f :: rest) ↔
      ((f.state = .CLEAR → f.destruct = none ∧ f.typeId.typeId = BaseType.void ∧
          f.typeId.ptrDepth = 0 ∧ f.typeId.constMask = 0) ∧ ClearOwnsNothing rest) := by
  unfold ClearOwnsNothing
  exact List.forall_mem_cons

theorem clearOwnsNothing_of_state_ne (f : ExceptionState n) (rest : Chain n)
    (hf : f.state ≠ .CLEAR) (hrest : ClearOwnsNothing rest) : ClearOwnsNothing (f :: rest) :=
  (clearOwnsNothing_cons f rest).2 ⟨fun h => absurd h hf, hrest⟩

theorem create_clearOwnsNothing (garbage : Buffer n) (stack : Chain n)
    (h : ClearOwnsNothing stack) : ClearOwnsNothing (ExceptionState.create garbage stack) := by
  unfold ExceptionState.create
  rw [clearOwnsNothing_cons]
  exact ⟨fun _ => ⟨rfl, rfl, rfl, rfl⟩, h⟩

theorem destroy_clearOwnsNothing (this : ExceptionState n) (previousES : Chain n)
    (log : Log n) (d : Destroyed n) (hinv : ClearOwnsNothing (this :: previousES))
    (h : this.destroy previousES log = .ret d) : ClearOwnsNothing d.current := by
  have hprev := ((clearOwnsNothing_cons this previousES).1 hinv).2
  unfold ExceptionState.destroy at h
  by_cases ht : this.isExceptionThrowing = true
  · simp only [ht, if_true] at h
    have hts := (ExceptionState.isExceptionThrowing_iff this).1 ht
    cases previousES with
    | nil => simp [ExceptionState.propagateUp] at h
    | cons p up =>
      have hup := ((clearOwnsNothing_cons p up).1 hprev).2
      by_cases hpt : p.isExceptionThrowing = true
      · simp [ExceptionState.propagateUp, hpt] at h
      · by_cases hsc : (this.isExceptionInState .RETHROW &&
            p.isExceptionInState .HANDLETHROW) = true
        · simp only [ExceptionState.propagateUp, hpt, hsc, if_true, Bool.false_eq_true,
            if_false, Outcome.ret.injEq] at h
          rw [← h]
          exact clearOwnsNothing_of_state_ne _ up
            (by simp [ExceptionState.setToThrowingState]) hup
        · simp only [ExceptionState.propagateUp, hpt, hsc, Bool.false_eq_true, if_false,
            Outcome.ret.injEq, ExceptionState.takeInstance_eq] at h
          rw [← h]
          refine clearOwnsNothing_of_state_ne _ up ?_ hup
          show this.state ≠ .CLEAR
          rcases hts with h1 | h1 <;> rw [h1] <;> decide
  · simp only [ht, Bool.false_eq_true, if_false, Outcome.ret.injEq] at h
    rw [← h]
    exact hprev

theorem getExceptionReference_ret_ne_clear (T : CType) (this : ExceptionState n)
    (previousES : Chain n) (r : VoidPtr n × ExceptionState n)
    (h : this.getExceptionReference T previousES = .ret r) : r.2.state ≠ .CLEAR := by
  unfold ExceptionState.getExceptionReference at h
  by_cases hs : this.state = .RETHROW
  · simp only [hs, if_true] at h
    cases hf : ExceptionState.getLatestHandlingExceptionState previousES with
    | nil => simp [hf] at h
    | cons A up =>
      simp only [hf] at h
      split_ifs at h <;>
        · simp only [Outcome.ret.injEq] at h
          rw [← h]
          simp [ExceptionState.setToHandleRethrowState]
  · simp only [hs, if_false] at h
    split_ifs at h <;>
      · simp only [Outcome.ret.injEq] at h
        rw [← h]
        simp [ExceptionState.setToHandlingState]

theorem rethrow_ret_ne_clear (this : ExceptionState n) (previousES : Chain n)
    (this1 : ExceptionState n) (h : this.rethrow previousES = .ret this1) :
    this1.state ≠ .CLEAR := by
  unfold ExceptionState.rethrow at h
  by_cases hs : this.state = .HANDLETHROW
  · simp only [hs, if_true, Outcome.ret.injEq] at h
    rw [← h]
    simp [ExceptionState.setToThrowingState]
  · simp only [hs, if_false] at h
    rcases hasHandling_or_none previousES with hh | hn
    · rw [rethrowLoop_of_hasHandling this previousES hh] at h
      simp only [Outcome.ret.injEq] at h
      rw [← h]
      simp [ExceptionState.setToRethrowingState]
    · rw [rethrowLoop_of_no_handling this previousES hn] at h
      cases h

theorem throwException_clearOwnsNothing (env : TypeEnv) (T : CType) (exc : ExcArg)
    (this : ExceptionState n) (previousES : Chain n) (log : Log n)
    (r : ExceptionState n × Log n) (hinv : ClearOwnsNothing (this :: previousES))
    (h : this.throwException env T exc log = .ret r) :
    ClearOwnsNothing (r.1 :: previousES) :=
  clearOwnsNothing_of_state_ne _ _
    (by rw [throwException_ret_state env T exc this log r h]; decide)
    ((clearOwnsNothing_cons this previousES).1 hinv).2

theorem getExceptionReference_clearOwnsNothing (T : CType) (this : ExceptionState n)
    (previousES : Chain n) (r : VoidPtr n × ExceptionState n)
    (hinv : ClearOwnsNothing (this :: previousES))
    (h : this.getExceptionReference T previousES = .ret r) :
    ClearOwnsNothing (r.2 :: previousES) :=
  clearOwnsNothing_of_state_ne _ _ (getExceptionReference_ret_ne_clear T this previousES r h)
    ((clearOwnsNothing_cons this previousES).1 hinv).2

theorem rethrow_clearOwnsNothing (this : ExceptionState n) (previousES : Chain n)
    (this1 : ExceptionState n) (hinv : ClearOwnsNothing (this :: previousES))
    (h : this.rethrow previousES = .ret this1) : ClearOwnsNothing (this1 :: previousES) :=
  clearOwnsNothing_of_state_ne _ _ (rethrow_ret_ne_clear this previousES this1 h)
    ((clearOwnsNothing_cons this previousES).1 hinv).2

/-- Leaving `k + 1` scopes is leaving `k` scopes and then one more. -/
theorem unwind_succ_right (k : Nat) :
    ∀ (stack : Chain n) (log : Log n),
      unwind (k + 1) stack log = (unwind k stack log).bind fun r => exitScope r.1 r.2 := by
  induction k with
  | zero =>
    intro stack log
    simp only [unwind, Outcome.bind]
    cases exitScope stack log <;> rfl
  | succ k ih =>
    intro stack log
    rw [unwind]
    cases h : exitScope stack log with
    | ret r =>
      simp only [Outcome.bind]
      rw [ih r.1 r.2]
      conv_rhs => rw [unwind, h]
      rfl
    | terminate =>
      conv_rhs => rw [unwind, h]
      rfl
    | nullDeref =>
      conv_rhs => rw [unwind, h]
      rfl

/-- What `~ExceptionState()` does on a frame in state `RETHROW` whose previous frame is
in state `CLEAR`: it relocates, state `RETHROW` included. -/
theorem destroy_rethrow_relocates (G m : ExceptionState n) (rest : Chain n) (log : Log n)
    (hG : G.state = .RETHROW) (hm : m.state = .CLEAR) :
    G.destroy (m :: rest) log =
      .ret ⟨{ G with destruct := none, typeId := InstanceType.clear, state := .CLEAR },
        { G with previousES := m.previousES } :: rest, m.callDestructIfSet log⟩ := by
  have hGt : G.isExceptionThrowing = true :=
    (ExceptionState.isExceptionThrowing_iff G).2 (Or.inr hG)
  have hmt : m.isExceptionThrowing = false :=
    ExceptionState.isExceptionThrowing_eq_false m (by rw [hm]; decide) (by rw [hm]; decide)
  simp [ExceptionState.destroy, hGt, ExceptionState.propagateUp, hmt,
    ExceptionState.isExceptionInState, hG, hm, ExceptionState.takeInstance_eq]

/-- What `~ExceptionState()` does on a frame in state `RETHROW` whose previous frame is
in state `HANDLETHROW`: only the state of the previous frame changes. -/
theorem destroy_rethrow_shortcut (G H : ExceptionState n) (up : Chain n) (log : Log n)
    (hG : G.state = .RETHROW) (hH : H.state = .HANDLETHROW) :
    G.destroy (H :: up) log = .ret ⟨G, { H with state := .THROW } :: up, log⟩ := by
  have hGt : G.isExceptionThrowing = true :=
    (ExceptionState.isExceptionThrowing_iff G).2 (Or.inr hG)
  have hHt : H.isExceptionThrowing = false :=
    ExceptionState.isExceptionThrowing_eq_false H (by rw [hH]; decide) (by rw [hH]; decide)
  simp [ExceptionState.destroy, hGt, ExceptionState.propagateUp, hHt,
    ExceptionState.isExceptionInState, hG, hH, ExceptionState.setToThrowingState]

/-- A frame in state `RETHROW` is carried through the first `i` of the enclosing `CLEAR`
frames `ms`: after `i` scope exits the top frame is in state `RETHROW`, the frames
behind it are untouched, and the only destructor calls are those the left frames had
recorded for their own contents. -/
theorem unwind_rethrow_prefix (ms : Chain n) :
    ∀ (G : ExceptionState n) (rest : Chain n) (log : Log n) (i : Nat), G.state = .RETHROW →
      (∀ m ∈ ms, m.state = .CLEAR) → i ≤ ms.length →
      ∃ top, unwind i (G :: ms ++ rest) log =
          .ret (top :: ms.drop i ++ rest, ownDestructorCalls (ms.take i) log) ∧
        top.state = .RETHROW := by
  induction ms with
  | nil =>
    intro G rest log i hG _ hi
    have : i = 0 := by simpa using hi
    subst this
    exact ⟨G, rfl, hG⟩
  | cons m ms ih =>
    intro G rest log i hG hclear hi
    cases i with
    | zero => exact ⟨G, rfl, hG⟩
    | succ i =>
      have hm := hclear m (List.mem_cons_self _ _)
      obtain ⟨top, hrun, htop⟩ :=
        ih { G with previousES := m.previousES } rest (m.callDestructIfSet log) i hG
          (fun q hq => hclear q (List.mem_cons_of_mem _ hq))
          (by simpa using hi)
      refine ⟨top, ?_, htop⟩
      simp only [unwind, List.cons_append, exitScope,
        destroy_rethrow_relocates G m (ms ++ rest) log hG hm, Outcome.bind]
      exact hrun

theorem ownDestructorCalls_of_none (ms : Chain n) :
    ∀ (log : Log n), (∀ m ∈ ms, m.destruct = none) → ownDestructorCalls ms log = log := by
  induction ms with
  | nil => intro log _; rfl
  | cons m ms ih =>
    intro log h
    simp only [ownDestructorCalls, List.foldl_cons,
      ExceptionState.callDestructIfSet_none m log (h m (List.mem_cons_self _ _))]
    exact ih log (fun q hq => h q (List.mem_cons_of_mem _ hq))

/-- Every reachable stack has only `CLEAR` frames that own nothing. -/
theorem reachable_clearOwnsNothing (env : TypeEnv) (stack : Chain n)
    (h : Reachable env stack) : ClearOwnsNothing stack := by
  induction h with
  | empty =>
    intro f hf
    simp at hf
  | construct garbage stack _ ih => exact create_clearOwnsNothing garbage stack ih
  | destroy this previousES log d _ hd ih =>
    exact destroy_clearOwnsNothing this previousES log d ih hd
  | throwException this previousES T exc log r _ hr ih =>
    exact throwException_clearOwnsNothing env T exc this previousES log r ih hr
  | holdsExceptionOfTypeT this previousES T b _ _ ih => exact ih
  | getExceptionReference this previousES T r _ hr ih =>
    exact getExceptionReference_clearOwnsNothing T this previousES r ih hr
  | rethrow this previousES this1 _ hr ih =>
    exact rethrow_clearOwnsNothing this previousES this1 ih hr

end SlimExcLib

/-! ## The claims on type descriptors -/

/-- C2: identity rule of `do_catch`. For a thrown type `T` and a handler type `U` of
equal pointer depth where `U` only adds const qualification, `do_catch<U>()` on a
descriptor set to `T` returns true exactly when the identity of `U` is the identity of
`T` or a strict ancestor of it in the single-inheritance chain, whatever the length of
the chain; otherwise it returns false. -/
theorem do_catch_identity_rule (env : TypeEnv) (T U : CType)
    (hd : T.depth = U.depth) (hc : OnlyAddsConst T U) :
    ((InstanceType.set T).do_catch env U = true ↔
      (getTypeId U = getTypeId T ∨ IsAncestor env (getTypeId U) (getTypeId T))) := by
  have h1 := (isPtrDepthCatchCompatible_iff T U).2 (getPointerLevel_eq_of_depth_eq T U hd)
  have h2 := areQualifiersCatchCompatible_of_onlyAddsConst T U hc
  have h3 : (InstanceType.set T).isEqualTo U = true ↔ getTypeId U = getTypeId T :=
    isEqualTo_iff (InstanceType.set T) U
  have h4 : (InstanceType.set T).isDerivedOf env U = true ↔
      IsAncestor env (getTypeId U) (getTypeId T) :=
    isDerivedOf_iff env (InstanceType.set T) U
  rw [← h3, ← h4]
  simp [InstanceType.do_catch, h1, h2]

/-- C2 at a concrete input: a thrown `MoreDerived` (class 3) and a handler
`const Base&` (class 0), two steps up the chain. -/
theorem do_catch_identity_rule_witness :
    (tClass 3).depth = (tConstClassRef 0).depth ∧ OnlyAddsConst (tClass 3) (tConstClassRef 0) ∧
    ((InstanceType.set (tClass 3)).do_catch sampleEnv (tConstClassRef 0) = true ↔
      (getTypeId (tConstClassRef 0) = getTypeId (tClass 3) ∨
        IsAncestor sampleEnv (getTypeId (tConstClassRef 0)) (getTypeId (tClass 3)))) :=
  have hc : OnlyAddsConst (tClass 3) (tConstClassRef 0) := by
    intro i h
    cases i <;> simp [tClass, CType.constAt, ObjType.constAt] at h
  ⟨rfl, hc, do_catch_identity_rule sampleEnv (tClass 3) (tConstClassRef 0) rfl hc⟩

/-- C3: pointer-depth rule of `do_catch`. For a thrown type `X` and a handler type `T`
whose pointer depths differ, both at most 7, `do_catch<T>()` on a descriptor set to `X`
returns false, whatever the identities and the const masks are. -/
theorem do_catch_depth_mismatch (env : TypeEnv) (X T : CType)
    (hX : X.depth ≤ 7) (hT : T.depth ≤ 7) (hne : X.depth ≠ T.depth) :
    (InstanceType.set X).do_catch env T = false := by
  have h1 : (InstanceType.set X).isPtrDepthCatchCompatible T = false := by
    rw [Bool.eq_false_iff, Ne, isPtrDepthCatchCompatible_iff, getPointerLevel_of_le X hX,
      getPointerLevel_of_le T hT]
    exact hne
  simp [InstanceType.do_catch, h1]

/-- C3 at a concrete input: a thrown `int*` and a handler `int`, the same underlying
type at depths 1 and 0. -/
theorem do_catch_depth_mismatch_witness :
    tIntPtr.depth ≤ 7 ∧ tInt.depth ≤ 7 ∧ tIntPtr.depth ≠ tInt.depth ∧
    getTypeId tIntPtr = getTypeId tInt ∧
    (InstanceType.set tIntPtr).do_catch sampleEnv tInt = false :=
  ⟨by decide, by decide, by decide, rfl,
    do_catch_depth_mismatch sampleEnv tIntPtr tInt (by decide) (by decide) (by decide)⟩

/-- C4 as stated fails at pointer depth 0: a thrown `const int` and a handler `int`
have the same identity and the same depth 0, level 0 is const in the thrown type and
not in the handler type, and `do_catch<int>()` returns true. -/
theorem do_catch_const_object_nonconst_handler :
    getTypeId tConstInt = getTypeId tInt ∧ tConstInt.depth = 0 ∧ tInt.depth = 0 ∧
    tConstInt.constAt 0 = true ∧ tInt.constAt 0 = false ∧
    (InstanceType.set tConstInt).do_catch sampleEnv tInt = true := by
  decide

/-- C4, amended: const-qualifier rule of `do_catch`. For a thrown type `X` and a
handler type `T` of the same identity and the same pointer depth `d`: for `d` from 1
to 7, `do_catch<T>()` on a descriptor set to `X` returns true exactly when every level
that is const in `X` is const in `T`; for `d = 0` (a non-pointer object) it returns
true whatever the const qualification of `X` and `T`. -/
theorem do_catch_const_rule (env : TypeEnv) (X T : CType)
    (hid : getTypeId X = getTypeId T) (hd : X.depth = T.depth) (h7 : X.depth ≤ 7) :
    (X.depth = 0 → (InstanceType.set X).do_catch env T = true) ∧
    (1 ≤ X.depth → ((InstanceType.set X).do_catch env T = true ↔ OnlyAddsConst X T)) := by
  have h1 := (isPtrDepthCatchCompatible_iff X T).2 (getPointerLevel_eq_of_depth_eq X T hd)
  have h3 : (InstanceType.set X).isEqualTo T = true := by
    rw [isEqualTo_iff]; exact hid.symm
  have hlevel := getPointerLevel_of_le X h7
  constructor
  · intro h0
    have h2 : (InstanceType.set X).areQualifiersCatchCompatible T = true := by
      simp [InstanceType.areQualifiersCatchCompatible, InstanceType.set, hlevel, h0]
    simp [InstanceType.do_catch, h1, h2, h3]
  · intro hpos
    have hq : (InstanceType.set X).areQualifiersCatchCompatible T = true ↔
        ((255 - getConstMask T) &&& getConstMask X = 0) := by
      have : 0 < X.depth := hpos
      simp [InstanceType.areQualifiersCatchCompatible, InstanceType.set, hlevel, this]
    have hall : (∀ i, i < 8 → X.constAt i = true → T.constAt i = true) ↔ OnlyAddsConst X T := by
      constructor
      · intro h i hx
        by_cases hi : i < 8
        · exact h i hi hx
        · have : X.constAt i = false :=
            constAt_of_depth_lt X.obj i (by unfold CType.depth at h7; omega)
          rw [this] at hx
          exact absurd hx (by simp)
      · intro h i _ hx
        exact h i hx
    rw [← hall, ← mask_test_iff, ← hq]
    simp [InstanceType.do_catch, h1, h3]

/-- C4, amended, at a concrete input: a thrown `const int*` is not caught by a handler
`int*`, because the pointee level would lose its const. -/
theorem do_catch_const_rule_witness :
    getTypeId tConstIntPtr = getTypeId tIntPtr ∧ tConstIntPtr.depth = tIntPtr.depth ∧
    tConstIntPtr.depth ≤ 7 ∧ (InstanceType.set tConstIntPtr).do_catch sampleEnv tIntPtr = false ∧
    (1 ≤ tConstIntPtr.depth →
      ((InstanceType.set tConstIntPtr).do_catch sampleEnv tIntPtr = true ↔
        OnlyAddsConst tConstIntPtr tIntPtr)) :=
  ⟨rfl, rfl, by decide, by decide,
    (do_catch_const_rule sampleEnv tConstIntPtr tIntPtr rfl rfl (by decide)).2⟩

/-! ## The claims on exception frames -/

open SlimExcLib SlimExcLib.ExceptionState

/-- C5: a double throw is fatal. For every frame, thrown type and argument,
`throwException` calls `std::terminate()` exactly when the state of the frame before
the call is `THROW` (Throwing) or `RETHROW` (Rethrowing); in the states `CLEAR`,
`HANDLETHROW` (Handling) and `HANDLERETHROW` (HandlingRethrow) it returns. -/
theorem throw_terminates_iff {n : Nat} (env : TypeEnv) (T : CType) (exc : ExcArg)
    (this : ExceptionState n) (log : Log n) :
    (this.throwException env T exc log = .terminate ↔
      (this.state = .THROW ∨ this.state = .RETHROW)) ∧
    ((this.state = .CLEAR ∨ this.state = .HANDLETHROW ∨ this.state = .HANDLERETHROW) →
      ∃ r, this.throwException env T exc log = .ret r) := by
  have hiff := isExceptionThrowing_iff this
  constructor
  · by_cases ht : this.isExceptionThrowing = true
    · have hs := hiff.1 ht
      simp [throwException, throwExceptionHelper, ht, hs]
    · have hs : ¬ (this.state = .THROW ∨ this.state = .RETHROW) := fun h => ht (hiff.2 h)
      simp only [hs, iff_false]
      cases exc <;> simp [throwException, throwExceptionHelper, ht, compareAdresses]
  · intro hs
    have ht : this.isExceptionThrowing = false := by
      rcases hs with h | h | h <;>
        exact isExceptionThrowing_eq_false this (by simp [h]) (by simp [h])
    cases exc <;> simp [throwException, throwExceptionHelper, ht, compareAdresses]

/-- C6: postcondition of a normal throw. For a frame that is not `THROW` or `RETHROW`
and an object `bytes` of type `T` that lies outside the buffer of the frame and fits in
it, `throwException` returns and leaves the frame in state `THROW`, the object at the
start of the buffer, the descriptor equal to the one `set<T>()` produces, the
destructor equal to `destructorInvoker<T>` if `T` is destructible and to `nullptr`
otherwise, and `previousES` as it was. If a destructor was recorded before the call it
is called exactly once, on the old contents of the buffer; otherwise none is called. -/
theorem throw_postcondition {n : Nat} (env : TypeEnv) (T : CType) (bytes : List Byte)
    (this : ExceptionState n) (log : Log n)
    (h1 : this.state ≠ .THROW) (h2 : this.state ≠ .RETHROW) (hfit : bytes.length ≤ n) :
    ∃ this1 log1, this.throwException env T (.object bytes) log = .ret (this1, log1) ∧
      this1.state = .THROW ∧
      this1.exceptionBuffer.bytes.take bytes.length = bytes ∧
      this1.typeId = InstanceType.set T ∧
      this1.destruct = (if env.isDestructible T = true then some T else none) ∧
      this1.previousES = this.previousES ∧
      log1 = (match this.destruct with
        | some d => log ++ [⟨d, this.exceptionBuffer⟩]
        | none => log) := by
  have ht := isExceptionThrowing_eq_false this h1 h2
  refine ⟨_, _, throwException_object env T bytes this log ht, rfl,
    Buffer.store_take _ _ hfit, rfl, rfl, rfl, ?_⟩
  unfold callDestructIfSet
  rfl

/-- C6 at a concrete input: a frame in state `HANDLETHROW` holding an object of class 2
throws the `int` 42; the old object is destroyed once. -/
theorem throw_postcondition_witness :
    handlingFrame.state ≠ .THROW ∧ handlingFrame.state ≠ .RETHROW ∧
    ∃ this1 log1, handlingFrame.throwException sampleEnv tInt (.object [42, 0, 0, 0]) [] =
        .ret (this1, log1) ∧
      this1.state = .THROW ∧
      this1.exceptionBuffer.bytes.take 4 = [42, 0, 0, 0] ∧
      this1.typeId = InstanceType.set tInt ∧
      this1.destruct = some tInt ∧
      this1.previousES = 0 ∧
      log1 = [⟨tClass 2, buf4 7 7 7 7⟩] :=
  ⟨by decide, by decide,
    throw_postcondition sampleEnv tInt [42, 0, 0, 0] handlingFrame [] (by decide) (by decide)
      (by decide)⟩

/-- C7: uncaught propagation and double fault are fatal. Destroying a frame in state
`THROW` calls `std::terminate()` exactly when its previous frame is `NULL` or is itself
`THROW` or `RETHROW`. In particular (Scenario A) a single root frame that throws a
value, such as the `int` 42, and is then destroyed terminates the process. -/
theorem uncaught_propagation_is_fatal :
    (∀ (n : Nat) (this : ExceptionState n) (previousES : Chain n) (log : Log n),
      this.state = .THROW →
      (this.destroy previousES log = .terminate ↔
        (previousES = [] ∨
          ∃ prev up, previousES = prev :: up ∧ (prev.state = .THROW ∨ prev.state = .RETHROW)))) ∧
    (∀ (n : Nat) (env : TypeEnv) (T : CType) (bytes : List Byte) (garbage : Buffer n)
      (log : Log n),
      ∃ root, create garbage [] = [root] ∧
        ((root.throwException env T (.object bytes) log).bind
          fun r => r.1.destroy [] r.2) = .terminate) := by
  constructor
  · intro n this previousES log h
    have ht : this.isExceptionThrowing = true := (isExceptionThrowing_iff this).2 (Or.inl h)
    cases previousES with
    | nil => simp [destroy, ht, propagateUp]
    | cons prev up =>
      by_cases hp : prev.isExceptionThrowing = true
      · have hs := (isExceptionThrowing_iff prev).1 hp
        simp [destroy, ht, propagateUp, hp, hs]
      · have hs : ¬ (prev.state = .THROW ∨ prev.state = .RETHROW) :=
          fun h => hp ((isExceptionThrowing_iff prev).2 h)
        have hp2 : prev.isExceptionThrowing = false := by simpa using hp
        simp [destroy, ht, propagateUp_relocates this prev up log h hp2, hs]
  · intro n env T bytes garbage log
    refine ⟨_, rfl, ?_⟩
    simp [throwException, throwExceptionHelper, isExceptionThrowing, State.toNat,
      compareAdresses, construct, Outcome.bind, destroy, propagateUp]

/-- C7 at a concrete input (Scenario A): the root frame throws the `int` 42 and is
destroyed. -/
theorem uncaught_propagation_is_fatal_witness :
    ((rootFrame.throwException sampleEnv tInt (.object [42, 0, 0, 0]) []).bind
      fun r => r.1.destroy [] r.2) = .terminate ∧
    (throwingFrame.destroy [] [] = .terminate ↔
      (([] : Chain 4) = [] ∨
        ∃ prev up, ([] : Chain 4) = prev :: up ∧ (prev.state = .THROW ∨ prev.state = .RETHROW))) :=
  ⟨by decide, uncaught_propagation_is_fatal.1 4 throwingFrame [] [] rfl⟩

/-- C8: relocation transfers ownership. When `propagateUp` runs on a frame `F` in state
`THROW` whose previous frame `P` exists and is not `THROW` or `RETHROW`, it returns;
afterwards the buffer of `P` equals the buffer `F` had, byte for byte, the descriptor
and the destructor of `P` are those `F` had, `P` is in state `THROW`, and `F` has the
cleared descriptor, no destructor and state `CLEAR`. If `P` had a recorded destructor
it is called exactly once, on the old contents of the buffer of `P`. -/
theorem relocation_transfers_ownership {n : Nat} (F P : ExceptionState n) (up : Chain n)
    (log : Log n) (hF : F.state = .THROW) (hP1 : P.state ≠ .THROW) (hP2 : P.state ≠ .RETHROW) :
    ∃ F1 P1 log1, F.propagateUp (P :: up) log = .ret (F1, P1 :: up, log1) ∧
      P1.exceptionBuffer = F.exceptionBuffer ∧ P1.typeId = F.typeId ∧
      P1.destruct = F.destruct ∧ P1.state = .THROW ∧ P1.previousES = P.previousES ∧
      F1.typeId = InstanceType.clear ∧ F1.destruct = none ∧ F1.state = .CLEAR ∧
      F1.exceptionBuffer = F.exceptionBuffer ∧ F1.previousES = F.previousES ∧
      log1 = (match P.destruct with
        | some d => log ++ [⟨d, P.exceptionBuffer⟩]
        | none => log) := by
  have hp := isExceptionThrowing_eq_false P hP1 hP2
  refine ⟨_, _, _, propagateUp_relocates F P up log hF hp, rfl, rfl, rfl, hF, rfl, rfl, rfl,
    rfl, rfl, rfl, ?_⟩
  unfold callDestructIfSet
  rfl

/-- C8 at a concrete input: a frame throwing the `int` 42 inside a frame that is
handling an object of class 2. -/
theorem relocation_transfers_ownership_witness :
    throwingFrame.state = .THROW ∧ handlingFrame.state ≠ .THROW ∧
    handlingFrame.state ≠ .RETHROW ∧
    ∃ F1 P1 log1, throwingFrame.propagateUp [handlingFrame] [] = .ret (F1, [P1], log1) ∧
      P1.exceptionBuffer = buf4 42 0 0 0 ∧ P1.typeId = InstanceType.set tInt ∧
      P1.destruct = some tInt ∧ P1.state = .THROW ∧
      F1.typeId = InstanceType.clear ∧ F1.destruct = none ∧ F1.state = .CLEAR ∧
      log1 = [⟨tClass 2, buf4 7 7 7 7⟩] := by
  obtain ⟨F1, P1, log1, h, h1, h2, h3, h4, -, h5, h6, h7, -, -, h8⟩ :=
    relocation_transfers_ownership throwingFrame handlingFrame [] [] rfl (by decide) (by decide)
  exact ⟨rfl, by decide, by decide, F1, P1, log1, h, h1, h2, h3, h4, h5, h6, h7, h8⟩

/-- C1 as stated fails for a pointer type. A frame inside the root frame throws a null
`int*` (four zero bytes) and is destroyed; `getExceptionReference<int*>()` on the root
frame then returns the pointer value read from the start of the buffer, which is the
thrown null pointer, and not the address of the buffer of the root frame. -/
theorem catch_pointer_returns_stored_pointer :
    ((innerFrame.throwException sampleEnv tIntPtr (.object [0, 0, 0, 0]) []).bind fun r =>
      (r.1.destroy [rootFrame] r.2).bind fun d =>
        match d.current with
        | F1 :: up => (F1.getExceptionReference tIntPtr up).bind fun g => .ret g.1
        | [] => .nullDeref) = .ret (VoidPtr.storedIn (buf4 0 0 0 0)) ∧
    VoidPtr.storedIn (buf4 0 0 0 0) ≠ VoidPtr.bufferOf (Chain.address [rootFrame]) := by
  decide

/-- C1, amended: catch one level up (Scenario B). Frame `F2` with enclosing frame `F1`
(not `THROW` or `RETHROW`) throws an object `bytes` of type `X` and is destroyed. Then
`F1` is in state `THROW` and `F2` in state `CLEAR`, `holdsExceptionOfTypeT<X>()` on `F1`
returns true, and `getExceptionReference<X>()` on `F1` leaves `F1` in state
`HANDLETHROW` with its buffer equal to the buffer of `F2` after the throw, which starts
with `bytes`. It returns the address of that buffer when `X` is not a pointer type, and
the pointer value stored at the start of that buffer when `X` is a pointer type. -/
theorem catch_one_level_up {n : Nat} (env : TypeEnv) (X : CType) (bytes : List Byte)
    (F2 F1 : ExceptionState n) (up : Chain n) (log : Log n)
    (h2a : F2.state ≠ .THROW) (h2b : F2.state ≠ .RETHROW)
    (h1a : F1.state ≠ .THROW) (h1b : F1.state ≠ .RETHROW) (hfit : bytes.length ≤ n) :
    ∃ F2a log1 F2b F1a log2 ptr F1b,
      F2.throwException env X (.object bytes) log = .ret (F2a, log1) ∧
      F2a.destroy (F1 :: up) log1 = .ret ⟨F2b, F1a :: up, log2⟩ ∧
      F1a.state = .THROW ∧ F2b.state = .CLEAR ∧
      F1a.holdsExceptionOfTypeT env X up = .ret true ∧
      F1a.getExceptionReference X up = .ret (ptr, F1b) ∧
      ptr = (if isPointer X = true then VoidPtr.storedIn F1b.exceptionBuffer
             else VoidPtr.bufferOf (Chain.address (F1b :: up))) ∧
      F1b.exceptionBuffer = F2a.exceptionBuffer ∧
      F1b.exceptionBuffer.bytes.take bytes.length = bytes ∧
      F1b.state = .HANDLETHROW := by
  have ht2 := isExceptionThrowing_eq_false F2 h2a h2b
  have ht1 := isExceptionThrowing_eq_false F1 h1a h1b
  refine ⟨_, _, _, _, _, _, _, throwException_object env X bytes F2 log ht2,
    destroy_relocates _ F1 up _ rfl ht1, rfl, rfl, ?_,
    getExceptionReference_own X _ up (by simp), rfl, rfl, Buffer.store_take _ _ hfit, rfl⟩
  simp [holdsExceptionOfTypeT, do_catch_set_self]

/-- C1, amended, at a concrete input: a frame inside the root frame throws an object of
class 1 (`Derived`) with bytes `1 2 3 4`. -/
theorem catch_one_level_up_witness :
    innerFrame.state ≠ .THROW ∧ innerFrame.state ≠ .RETHROW ∧
    rootFrame.state ≠ .THROW ∧ rootFrame.state ≠ .RETHROW ∧
    ∃ F2a log1 F2b F1a log2 F1b,
      innerFrame.throwException sampleEnv (tClass 1) (.object [1, 2, 3, 4]) [] = .ret (F2a, log1) ∧
      F2a.destroy [rootFrame] log1 = .ret ⟨F2b, [F1a], log2⟩ ∧
      F1a.state = .THROW ∧ F2b.state = .CLEAR ∧
      F1a.holdsExceptionOfTypeT sampleEnv (tClass 1) [] = .ret true ∧
      F1a.getExceptionReference (tClass 1) [] = .ret (VoidPtr.bufferOf 1, F1b) ∧
      F1b.exceptionBuffer.bytes = [1, 2, 3, 4] ∧ F1b.state = .HANDLETHROW := by
  obtain ⟨F2a, log1, F2b, F1a, log2, ptr, F1b, e1, e2, e3, e4, e5, e6, e7, -, e9, e10⟩ :=
    catch_one_level_up sampleEnv (tClass 1) [1, 2, 3, 4] innerFrame rootFrame [] []
      (by decide) (by decide) (by decide) (by decide) (by decide)
  have hptr : ptr = VoidPtr.bufferOf 1 := by rw [e7]; rfl
  have hbytes : F1b.exceptionBuffer.bytes = [1, 2, 3, 4] := by
    have hlen : F1b.exceptionBuffer.bytes.length = 4 := F1b.exceptionBuffer.size_eq
    rw [← e9]
    exact (List.take_of_length_le (by rw [hlen]; rfl)).symm
  rw [hptr] at e6
  exact ⟨by decide, by decide, by decide, by decide,
    F2a, log1, F2b, F1a, log2, F1b, e1, e2, e3, e4, e5, e6, hbytes, e10⟩

/-- C9: relocation round trip. For `N = ps.length` at least 1: an object `bytes` of
type `T` is thrown in the innermost frame `F` of a stack whose `N` enclosing frames `ps`
are in state `CLEAR`, and `F` and the inner `N - 1` frames of `ps` are destroyed,
innermost first. Then the outermost frame of `ps` is in state `THROW`, its buffer is
equal byte for byte to the buffer of `F` right after the throw, and its descriptor and
destructor are the ones the throw recorded. -/
theorem relocation_round_trip {n : Nat} (env : TypeEnv) (T : CType) (bytes : List Byte)
    (F : ExceptionState n) (ps rest : Chain n) (log : Log n)
    (hF1 : F.state ≠ .THROW) (hF2 : F.state ≠ .RETHROW) (hN : ps ≠ [])
    (hclear : ∀ p ∈ ps, p.state = .CLEAR) :
    ∃ F1 log1 top log2,
      F.throwException env T (.object bytes) log = .ret (F1, log1) ∧
      unwind ps.length (F1 :: ps ++ rest) log1 = .ret (top :: rest, log2) ∧
      top.previousES = (ps.getLast hN).previousES ∧
      top.state = .THROW ∧
      top.exceptionBuffer = F1.exceptionBuffer ∧
      top.typeId = InstanceType.set T ∧
      top.destruct = (if env.isDestructible T = true then some T else none) := by
  have ht := isExceptionThrowing_eq_false F hF1 hF2
  obtain ⟨G1, log2, hrun, hb, hty, hd, hs, hprev, -⟩ :=
    unwind_relocates ps
      { exceptionBuffer := F.exceptionBuffer.store bytes,
        typeId := InstanceType.set T,
        destruct := if env.isDestructible T = true then some T else none,
        previousES := F.previousES,
        state := .THROW } rest (F.callDestructIfSet log) rfl hclear
  exact ⟨_, _, G1, log2, throwException_object env T bytes F log ht, hrun, hprev hN, hs, hb,
    hty, hd⟩

/-- C9 at a concrete input: an `int` 42 thrown two frames below the root frame. -/
theorem relocation_round_trip_witness :
    innermostFrame.state ≠ .THROW ∧ innermostFrame.state ≠ .RETHROW ∧
    [innerFrame, rootFrame] ≠ [] ∧ (∀ p ∈ [innerFrame, rootFrame], p.state = .CLEAR) ∧
    ∃ F1 log1 top log2,
      innermostFrame.throwException sampleEnv tInt (.object [42, 0, 0, 0]) [] = .ret (F1, log1) ∧
      unwind 2 [F1, innerFrame, rootFrame] log1 = .ret ([top], log2) ∧
      top.previousES = 0 ∧ top.state = .THROW ∧
      top.exceptionBuffer = F1.exceptionBuffer ∧
      top.typeId = InstanceType.set tInt ∧ top.destruct = some tInt :=
  have hclear : ∀ p ∈ [innerFrame, rootFrame], p.state = .CLEAR := by
    intro p hp
    simp only [List.mem_cons, List.mem_singleton, List.not_mem_nil, or_false] at hp
    rcases hp with h | h <;> rw [h] <;> rfl
  ⟨by decide, by decide, by decide, hclear,
    relocation_round_trip sampleEnv tInt [42, 0, 0, 0] innermostFrame [innerFrame, rootFrame] [] []
      (by decide) (by decide) (by decide) hclear⟩

/-- C10 as stated fails. An object of class 0 with bytes `1 2 3 4` is thrown in a frame
inside the root frame and relocated once, into the root frame, without a destructor
call. If the root frame, the final holder, exits without converting to Handling, no
destructor is called: `propagateUp` calls `std::terminate()`. If it converts to
Handling and then exits, the destructor is called, once: the call is triggered by the
exit of a frame that did convert to Handling. -/
theorem destructor_runs_on_exit_after_handling :
    ((innerFrame.throwException sampleEnv (tClass 0) (.object [1, 2, 3, 4]) []).bind fun r =>
      unwind 1 [r.1, rootFrame] r.2) = .ret ([relocatedFrame], []) ∧
    relocatedFrame.state = .THROW ∧
    relocatedFrame.destroy [] [] = .terminate ∧
    relocatedFrame.getExceptionReference (tClass 0) [] =
      .ret (VoidPtr.bufferOf 1, relocatedFrame.setToHandlingState) ∧
    relocatedFrame.setToHandlingState.state = .HANDLETHROW ∧
    relocatedFrame.setToHandlingState.destroy [] [] =
      .ret ⟨relocatedFrame.setToHandlingState, [], [⟨tClass 0, buf4 1 2 3 4⟩]⟩ := by
  decide

/-- C10, amended: single destruction across relocation. For `N = ps.length` at least 1:
an object of a destructible type `T` is thrown in the innermost frame `F` of a stack
whose `N` enclosing frames `ps` are in state `CLEAR` without a recorded destructor, and
is relocated by `N` consecutive scope exits. No destructor is called during the
relocations. If the final holding frame converts to Handling (`getExceptionReference`)
and then exits, the destructor of the object is called exactly once, by that exit, on
the relocated bytes. If it exits while still `THROW`, that exit calls no destructor:
it calls `std::terminate()` when there is no enclosing frame, and when the enclosing
frame is in state `CLEAR` without a recorded destructor it relocates the object once
more: the enclosing frame is then in state `THROW` with the buffer, the descriptor and
the destructor of the object, and the frame that exited is emptied. -/
theorem single_destruction_across_relocation {n : Nat} (env : TypeEnv) (T U : CType)
    (bytes : List Byte) (F : ExceptionState n) (ps rest : Chain n) (log : Log n)
    (hF1 : F.state ≠ .THROW) (hF2 : F.state ≠ .RETHROW) (hN : ps ≠ [])
    (hclear : ∀ p ∈ ps, p.state = .CLEAR ∧ p.destruct = none)
    (hT : env.isDestructible T = true) :
    ∃ F1 log1 top ptr top1,
      F.throwException env T (.object bytes) log = .ret (F1, log1) ∧
      unwind ps.length (F1 :: ps ++ rest) log1 = .ret (top :: rest, log1) ∧
      top.previousES = (ps.getLast hN).previousES ∧
      top.state = .THROW ∧
      top.getExceptionReference U rest = .ret (ptr, top1) ∧
      top1.state = .HANDLETHROW ∧
      top1.destroy rest log1 = .ret ⟨top1, rest, log1 ++ [⟨T, F1.exceptionBuffer⟩]⟩ ∧
      (rest = [] → top.destroy rest log1 = .terminate) ∧
      (∀ q up, rest = q :: up → q.state = .CLEAR → q.destruct = none →
        ∃ dead q1, top.destroy rest log1 = .ret ⟨dead, q1 :: up, log1⟩ ∧
          q1.state = .THROW ∧ q1.exceptionBuffer = F1.exceptionBuffer ∧
          q1.typeId = InstanceType.set T ∧ q1.destruct = some T ∧
          q1.previousES = q.previousES ∧
          dead.state = .CLEAR ∧ dead.destruct = none ∧ dead.typeId = InstanceType.clear) := by
  have ht := isExceptionThrowing_eq_false F hF1 hF2
  obtain ⟨G1, log2, hrun, hb, hty, hd, hs, hprev, hlog⟩ :=
    unwind_relocates ps
      { exceptionBuffer := F.exceptionBuffer.store bytes,
        typeId := InstanceType.set T,
        destruct := if env.isDestructible T = true then some T else none,
        previousES := F.previousES,
        state := .THROW } rest (F.callDestructIfSet log) rfl (fun p hp => (hclear p hp).1)
  have hlog2 := hlog (fun p hp => (hclear p hp).2)
  subst hlog2
  have hG1t : G1.isExceptionThrowing = true := (isExceptionThrowing_iff G1).2 (Or.inl hs)
  have hd2 : G1.destruct = some T := by rw [hd]; simp [hT]
  refine ⟨_, _, G1, _, _, throwException_object env T bytes F log ht, hrun, hprev hN, hs,
    getExceptionReference_own U G1 rest (by rw [hs]; decide), rfl, ?_, ?_, ?_⟩
  · have hnt : G1.setToHandlingState.isExceptionThrowing = false :=
      isExceptionThrowing_eq_false _ (by simp [setToHandlingState])
        (by simp [setToHandlingState])
    have hd3 : G1.setToHandlingState.destruct = some T := hd2
    have hb3 : G1.setToHandlingState.exceptionBuffer = F.exceptionBuffer.store bytes := hb
    simp only [destroy, hnt, Bool.false_eq_true, if_false,
      callDestructIfSet_some _ _ T hd3, hb3]
  · intro hrest
    subst hrest
    simp [destroy, hG1t, propagateUp]
  · intro q up hrest hq hqd
    subst hrest
    have hqt : q.isExceptionThrowing = false :=
      isExceptionThrowing_eq_false q (by rw [hq]; decide) (by rw [hq]; decide)
    have hrel := destroy_relocates G1 q up (F.callDestructIfSet log) hs hqt
    rw [callDestructIfSet_none q _ hqd] at hrel
    exact ⟨_, _, hrel, hs, hb, hty, hd2, rfl, rfl, rfl, rfl⟩

/-- C10, amended, at concrete inputs: an object of class 0 thrown two frames below
the root frame and relocated twice, into the root frame, where the exit while still
`THROW` terminates; and the same throw relocated once, into the frame inside the root
frame, where the exit while still `THROW` relocates the object into the root frame. -/
theorem single_destruction_across_relocation_witness :
    innermostFrame.state ≠ .THROW ∧ innermostFrame.state ≠ .RETHROW ∧
    [innerFrame, rootFrame] ≠ [] ∧
    (∀ p ∈ [innerFrame, rootFrame], p.state = .CLEAR ∧ p.destruct = none) ∧
    sampleEnv.isDestructible (tClass 0) = true ∧
    (∃ F1 log1 top ptr top1,
      innermostFrame.throwException sampleEnv (tClass 0) (.object [1, 2, 3, 4]) [] =
        .ret (F1, log1) ∧
      unwind 2 [F1, innerFrame, rootFrame] log1 = .ret ([top], log1) ∧
      top.state = .THROW ∧
      top.getExceptionReference (tConstClassRef 0) [] = .ret (ptr, top1) ∧
      top1.state = .HANDLETHROW ∧
      top1.destroy [] log1 = .ret ⟨top1, [], log1 ++ [⟨tClass 0, F1.exceptionBuffer⟩]⟩ ∧
      top.destroy [] log1 = .terminate) ∧
    (∃ F1 log1 top dead q1,
      innermostFrame.throwException sampleEnv (tClass 0) (.object [1, 2, 3, 4]) [] =
        .ret (F1, log1) ∧
      unwind 1 [F1, innerFrame, rootFrame] log1 = .ret ([top, rootFrame], log1) ∧
      top.state = .THROW ∧
      top.destroy [rootFrame] log1 = .ret ⟨dead, [q1], log1⟩ ∧
      q1.state = .THROW ∧ q1.exceptionBuffer = F1.exceptionBuffer ∧
      q1.typeId = InstanceType.set (tClass 0) ∧ q1.destruct = some (tClass 0) ∧
      q1.previousES = 0 ∧
      dead.state = .CLEAR ∧ dead.destruct = none ∧ dead.typeId = InstanceType.clear) := by
  have hclear : ∀ p ∈ [innerFrame, rootFrame], p.state = .CLEAR ∧ p.destruct = none := by
    intro p hp
    simp only [List.mem_cons, List.mem_singleton, List.not_mem_nil, or_false] at hp
    rcases hp with h | h <;> rw [h] <;> exact ⟨rfl, rfl⟩
  have hclear1 : ∀ p ∈ [innerFrame], p.state = .CLEAR ∧ p.destruct = none := by
    intro p hp
    simp only [List.mem_singleton] at hp
    rw [hp]
    exact ⟨rfl, rfl⟩
  obtain ⟨F1, log1, top, ptr, top1, e1, e2, -, e4, e5, e6, e7, e8, -⟩ :=
    single_destruction_across_relocation sampleEnv (tClass 0) (tConstClassRef 0) [1, 2, 3, 4]
      innermostFrame [innerFrame, rootFrame] [] [] (by decide) (by decide) (by decide) hclear rfl
  obtain ⟨G1, glog, gtop, -, -, g1, g2, -, g4, -, -, -, -, g9⟩ :=
    single_destruction_across_relocation sampleEnv (tClass 0) (tConstClassRef 0) [1, 2, 3, 4]
      innermostFrame [innerFrame] [rootFrame] [] (by decide) (by decide) (by decide) hclear1 rfl
  obtain ⟨dead, q1, r1, r2, r3, r4, r5, r6, r7, r8, r9⟩ := g9 rootFrame [] rfl rfl rfl
  exact ⟨by decide, by decide, by decide, hclear, rfl,
    ⟨F1, log1, top, ptr, top1, e1, e2, e4, e5, e6, e7, e8 rfl⟩,
    ⟨G1, glog, gtop, dead, q1, g1, g2, g4, r1, r2, r3, r4, r5, r6, r7, r8, r9⟩⟩

/-- C11: `holdsExceptionOfTypeT` delegates to the right descriptor. If the frame `F` is
in state `RETHROW` and `A` is the nearest frame behind it in state `HANDLETHROW` (no
frame of `pre`, between `F` and `A`, is in that state), the answer is `do_catch<T>()` of
the descriptor of `A`; in every other state it is `do_catch<T>()` of the descriptor of
`F` itself. The call returns a boolean only: the source assigns no field of any frame.
Scenario E: after a throw of a class `d` whose first base is `b`, the frame answers true
for `b` and false for a class `u` that is neither `d` nor an ancestor of `d`. -/
theorem holdsExceptionOfType_delegates :
    (∀ (n : Nat) (env : TypeEnv) (T : CType) (F : ExceptionState n) (pre : Chain n)
      (A : ExceptionState n) (up : Chain n),
      F.state = .RETHROW → (∀ p ∈ pre, p.state ≠ .HANDLETHROW) → A.state = .HANDLETHROW →
      F.holdsExceptionOfTypeT env T (pre ++ A :: up) = .ret (A.typeId.do_catch env T)) ∧
    (∀ (n : Nat) (env : TypeEnv) (T : CType) (F : ExceptionState n) (previousES : Chain n),
      F.state ≠ .RETHROW →
      F.holdsExceptionOfTypeT env T previousES = .ret (F.typeId.do_catch env T)) ∧
    (∀ (n : Nat) (env : TypeEnv) (d b u : Nat) (bytes : List Byte) (F : ExceptionState n)
      (previousES : Chain n) (log : Log n),
      env.firstBase d = some b → F.state ≠ .THROW → F.state ≠ .RETHROW →
      u ≠ d → ¬ IsAncestor env (.cls u) (.cls d) →
      ∃ F1 log1, F.throwException env (tClass d) (.object bytes) log = .ret (F1, log1) ∧
        F1.holdsExceptionOfTypeT env (tClass b) previousES = .ret true ∧
        F1.holdsExceptionOfTypeT env (tClass u) previousES = .ret false) := by
  refine ⟨?_, ?_, ?_⟩
  · intro n env T F pre A up hF hpre hA
    simp [holdsExceptionOfTypeT, hF, getLatestHandlingExceptionState,
      findHandling_append pre A up hpre hA]
  · intro n env T F previousES hF
    simp [holdsExceptionOfTypeT, hF]
  · intro n env d b u bytes F previousES log hdb hF1 hF2 hud hna
    have ht := isExceptionThrowing_eq_false F hF1 hF2
    refine ⟨_, _, throwException_object env (tClass d) bytes F log ht, ?_, ?_⟩
    · have hb : (InstanceType.set (tClass d)).do_catch env (tClass b) = true := by
        rw [do_catch_tClass_iff]
        right
        exact Relation.TransGen.single (by simp [ParentOf, TypeEnv.load, hdb])
      simp [holdsExceptionOfTypeT, hb]
    · have hu : (InstanceType.set (tClass d)).do_catch env (tClass u) = false := by
        rw [Bool.eq_false_iff, Ne, do_catch_tClass_iff]
        rintro (h | h)
        · exact hud h
        · exact hna h
      simp [holdsExceptionOfTypeT, hu]

/-- C11 at concrete inputs: a frame in state `RETHROW` behind which `handlingFrame`
holds an object of class 2, and Scenario E with `Derived` (class 1), `Base` (class 0)
and `Unrelated` (class 2). -/
theorem holdsExceptionOfType_delegates_witness :
    rethrowingFrame.holdsExceptionOfTypeT sampleEnv (tClass 2) [handlingFrame] = .ret true ∧
    ∃ F1 log1, innerFrame.throwException sampleEnv (tClass 1) (.object [1, 2, 3, 4]) [] =
        .ret (F1, log1) ∧
      F1.holdsExceptionOfTypeT sampleEnv (tClass 0) [rootFrame] = .ret true ∧
      F1.holdsExceptionOfTypeT sampleEnv (tClass 2) [rootFrame] = .ret false :=
  have hna : ¬ IsAncestor sampleEnv (.cls 2) (.cls 1) := fun h => by
    have h2 := (do_catch_tClass_iff sampleEnv 1 2).2 (Or.inr h)
    revert h2
    decide
  ⟨holdsExceptionOfType_delegates.1 4 sampleEnv (tClass 2) rethrowingFrame [] handlingFrame []
      rfl (fun p hp => by simp at hp) rfl,
    holdsExceptionOfType_delegates.2.2 4 sampleEnv 1 0 2 [1, 2, 3, 4] innerFrame [rootFrame] []
      rfl (by decide) (by decide) (by decide) hna⟩

/-- C12 as stated fails for a pointer type. A root frame in state `THROW` holds a null
`int*`; `getExceptionReference<int*>()` returns the pointer value read from the start
of the buffer, not the address of the buffer of the frame. -/
theorem getExceptionReference_of_pointer_returns_stored_pointer :
    pointerFrame.getExceptionReference tIntPtr [] =
      .ret (VoidPtr.storedIn (buf4 0 0 0 0), pointerFrame.setToHandlingState) ∧
    VoidPtr.storedIn (buf4 0 0 0 0) ≠ VoidPtr.bufferOf (Chain.address [pointerFrame]) := by
  decide

/-- C12, amended: `getExceptionReference` commits to handling. If the frame `F` is in
state `RETHROW` and `A` is the nearest frame behind it in state `HANDLETHROW`, the call
sets the state of `F` to `HANDLERETHROW` and returns, for a handler type that is not a
pointer type, the address of the buffer of `A`, and for a pointer type the pointer
value stored at the start of the buffer of `A`. In every other state it sets the state
of `F` to `HANDLETHROW` and returns the address of the buffer of `F`, or for a pointer
type the pointer value stored at its start. Buffer, descriptor, destructor and
`previousES` of `F` are unchanged; the source assigns no field of another frame. -/
theorem getExceptionReference_commits :
    (∀ (n : Nat) (T : CType) (F : ExceptionState n) (pre : Chain n) (A : ExceptionState n)
      (up : Chain n),
      F.state = .RETHROW → (∀ p ∈ pre, p.state ≠ .HANDLETHROW) → A.state = .HANDLETHROW →
      F.getExceptionReference T (pre ++ A :: up) =
        .ret (if isPointer T = true then VoidPtr.storedIn A.exceptionBuffer
              else VoidPtr.bufferOf (Chain.address (A :: up)),
          { F with state := .HANDLERETHROW })) ∧
    (∀ (n : Nat) (T : CType) (F : ExceptionState n) (previousES : Chain n),
      F.state ≠ .RETHROW →
      F.getExceptionReference T previousES =
        .ret (if isPointer T = true then VoidPtr.storedIn F.exceptionBuffer
              else VoidPtr.bufferOf (Chain.address (F :: previousES)),
          { F with state := .HANDLETHROW })) := by
  refine ⟨?_, ?_⟩
  · intro n T F pre A up hF hpre hA
    by_cases hp : isPointer T = true <;>
      simp [getExceptionReference, hF, getLatestHandlingExceptionState,
        findHandling_append pre A up hpre hA, hp, setToHandleRethrowState]
  · intro n T F previousES hF
    by_cases hp : isPointer T = true <;>
      simp [getExceptionReference, hF, hp, setToHandlingState, Chain.address]

/-- C12, amended, at concrete inputs: a frame in state `RETHROW` inside `handlingFrame`
with a handler `const C&` for class 2, and `throwingFrame` with a handler `int`. -/
theorem getExceptionReference_commits_witness :
    rethrowingFrame.getExceptionReference (tConstClassRef 2) [handlingFrame] =
      .ret (VoidPtr.bufferOf 1, { rethrowingFrame with state := .HANDLERETHROW }) ∧
    throwingFrame.getExceptionReference tInt [rootFrame] =
      .ret (VoidPtr.bufferOf 2, { throwingFrame with state := .HANDLETHROW }) :=
  ⟨getExceptionReference_commits.1 4 (tConstClassRef 2) rethrowingFrame [] handlingFrame []
      rfl (fun p hp => by simp at hp) rfl,
    getExceptionReference_commits.2 4 tInt throwingFrame [rootFrame] (by decide)⟩

/-- C13: `rethrow` has exactly three outcomes. If the frame `F` is in state
`HANDLETHROW` it becomes `THROW`; otherwise, if some frame behind it is in state
`HANDLETHROW`, it becomes `RETHROW`; otherwise, also when no frame is behind it, the
call ends in `std::terminate()`. In the two outcomes that return, only the state of
`F` changes. -/
theorem rethrow_three_outcomes :
    (∀ (n : Nat) (F : ExceptionState n) (previousES : Chain n),
      F.state = .HANDLETHROW → F.rethrow previousES = .ret { F with state := .THROW }) ∧
    (∀ (n : Nat) (F : ExceptionState n) (previousES : Chain n),
      F.state ≠ .HANDLETHROW → (∃ p ∈ previousES, p.state = .HANDLETHROW) →
      F.rethrow previousES = .ret { F with state := .RETHROW }) ∧
    (∀ (n : Nat) (F : ExceptionState n) (previousES : Chain n),
      F.state ≠ .HANDLETHROW → (∀ p ∈ previousES, p.state ≠ .HANDLETHROW) →
      F.rethrow previousES = .terminate) := by
  refine ⟨?_, ?_, ?_⟩
  · intro n F previousES hF
    simp [rethrow, hF, setToThrowingState]
  · intro n F previousES hF hh
    simp only [rethrow, hF, if_false]
    exact rethrowLoop_of_hasHandling F previousES hh
  · intro n F previousES hF hn
    simp only [rethrow, hF, if_false]
    exact rethrowLoop_of_no_handling F previousES hn

/-- C13 at concrete inputs: the three outcomes. -/
theorem rethrow_three_outcomes_witness :
    handlingFrame.rethrow [] = .ret { handlingFrame with state := .THROW } ∧
    innermostFrame.rethrow [innerFrame, handlingFrame] =
      .ret { innermostFrame with state := .RETHROW } ∧
    rootFrame.rethrow [] = .terminate :=
  ⟨rethrow_three_outcomes.1 4 handlingFrame [] rfl,
    rethrow_three_outcomes.2.1 4 innermostFrame [innerFrame, handlingFrame] (by decide)
      ⟨handlingFrame, by simp, rfl⟩,
    rethrow_three_outcomes.2.2 4 rootFrame [] (by decide) (fun p hp => by simp at hp)⟩

/-- C14: rethrow of the held object (Scenario C). Frame `F1` is in state `HANDLETHROW`
and its previous frame `F0` exists and is not `THROW` or `RETHROW`. Then `rethrow()`
returns with `F1` in state `THROW` and everything else in `F1` as it was; destroying
`F1` afterwards returns, calls no destructor except the one `F0` had recorded, on the
old contents of `F0`, and leaves `F0` in state `THROW` with the buffer, the descriptor
and the destructor `F1` was holding. -/
theorem rethrow_same_object {n : Nat} (F1 F0 : ExceptionState n) (up : Chain n) (log : Log n)
    (hF1 : F1.state = .HANDLETHROW) (h0a : F0.state ≠ .THROW) (h0b : F0.state ≠ .RETHROW) :
    F1.rethrow (F0 :: up) = .ret { F1 with state := .THROW } ∧
    ∃ dead F0a log1,
      ({ F1 with state := .THROW } : ExceptionState n).destroy (F0 :: up) log =
        .ret ⟨dead, F0a :: up, log1⟩ ∧
      F0a.state = .THROW ∧ F0a.exceptionBuffer = F1.exceptionBuffer ∧
      F0a.typeId = F1.typeId ∧ F0a.destruct = F1.destruct ∧
      F0a.previousES = F0.previousES ∧
      log1 = (match F0.destruct with
        | some d => log ++ [⟨d, F0.exceptionBuffer⟩]
        | none => log) := by
  have hp := isExceptionThrowing_eq_false F0 h0a h0b
  refine ⟨by simp [rethrow, hF1, setToThrowingState], _, _, _,
    destroy_relocates _ F0 up log rfl hp, rfl, rfl, rfl, rfl, rfl, ?_⟩
  unfold callDestructIfSet
  rfl

/-- C14 at a concrete input: `handlingFrame`, holding an object of class 2 with bytes
`7 7 7 7`, constructed inside a fresh root frame. -/
theorem rethrow_same_object_witness :
    handlingFrame.state = .HANDLETHROW ∧ rootFrame.state ≠ .THROW ∧
    rootFrame.state ≠ .RETHROW ∧
    handlingFrame.rethrow [rootFrame] = .ret { handlingFrame with state := .THROW } ∧
    ∃ dead F0a,
      ({ handlingFrame with state := .THROW } : ExceptionState 4).destroy [rootFrame] [] =
        .ret ⟨dead, [F0a], []⟩ ∧
      F0a.state = .THROW ∧ F0a.exceptionBuffer = buf4 7 7 7 7 ∧
      F0a.typeId = InstanceType.set (tClass 2) ∧ F0a.destruct = some (tClass 2) := by
  obtain ⟨e0, dead, F0a, log1, e1, e2, e3, e4, e5, -, e6⟩ :=
    rethrow_same_object handlingFrame rootFrame [] [] rfl (by decide) (by decide)
  have hlog : log1 = [] := e6
  rw [hlog] at e1
  exact ⟨rfl, by decide, by decide, e0, dead, F0a, e1, e2, e3, e4, e5⟩

/-- C15: rethrow shortcut of `propagateUp`. When a frame `F` in state `RETHROW` is
destroyed and its previous frame `P` is in state `HANDLETHROW`, the call returns, `P`
is in state `THROW` and nothing else changed: buffer, descriptor, destructor and
`previousES` of `P` are what they were, the frames behind `P` and `F` itself are
untouched, and no destructor is called. -/
theorem rethrow_shortcut {n : Nat} (F P : ExceptionState n) (up : Chain n) (log : Log n)
    (hF : F.state = .RETHROW) (hP : P.state = .HANDLETHROW) :
    F.destroy (P :: up) log = .ret ⟨F, { P with state := .THROW } :: up, log⟩ := by
  have hFt : F.isExceptionThrowing = true := (isExceptionThrowing_iff F).2 (Or.inr hF)
  have hPt : P.isExceptionThrowing = false :=
    isExceptionThrowing_eq_false P (by rw [hP]; decide) (by rw [hP]; decide)
  simp [destroy, hFt, propagateUp, hPt, isExceptionInState, hF, hP, setToThrowingState]

/-- C15 at a concrete input: `rethrowingFrame` inside `handlingFrame`. -/
theorem rethrow_shortcut_witness :
    rethrowingFrame.state = .RETHROW ∧ handlingFrame.state = .HANDLETHROW ∧
    rethrowingFrame.destroy [handlingFrame] [] =
      .ret ⟨rethrowingFrame, [{ handlingFrame with state := .THROW }], []⟩ :=
  ⟨rfl, rfl, rethrow_shortcut rethrowingFrame handlingFrame [] [] rfl rfl⟩

/-- C16, the behaviour of the code: for a frame in state `RETHROW` with no frame in
state `HANDLETHROW` behind it, `getLatestHandlingExceptionState()` returns `NULL`, and
`holdsExceptionOfTypeT<T>()` and `getExceptionReference<T>()` dereference it; neither
calls `std::terminate()`. On the same stack `rethrow()` does call it. -/
theorem orphan_rethrow_dereferences_null {n : Nat} (env : TypeEnv) (T : CType)
    (F : ExceptionState n) (previousES : Chain n)
    (hF : F.state = .RETHROW) (hn : ∀ p ∈ previousES, p.state ≠ .HANDLETHROW) :
    getLatestHandlingExceptionState previousES = [] ∧
    F.holdsExceptionOfTypeT env T previousES = .nullDeref ∧
    F.getExceptionReference T previousES = .nullDeref ∧
    F.rethrow previousES = .terminate := by
  have hnil := findHandling_eq_nil previousES hn
  refine ⟨hnil, ?_, ?_, ?_⟩
  · simp [holdsExceptionOfTypeT, hF, getLatestHandlingExceptionState, hnil]
  · simp [getExceptionReference, hF, getLatestHandlingExceptionState, hnil]
  · simp only [rethrow, hF]
    exact rethrowLoop_of_no_handling F previousES hn

/-- C16 at the failing input: a root frame put in state `RETHROW`. -/
theorem orphan_rethrow_dereferences_null_witness :
    orphanFrame.state = .RETHROW ∧
    orphanFrame.holdsExceptionOfTypeT sampleEnv tInt [] = .nullDeref ∧
    orphanFrame.getExceptionReference tInt [] = .nullDeref ∧
    orphanFrame.rethrow [] = .terminate :=
  ⟨rfl, (orphan_rethrow_dereferences_null sampleEnv tInt orphanFrame [] rfl
    (fun p hp => by simp at hp)).2⟩

/-- C17: explicit self-rethrow. For a frame that is not `THROW` or `RETHROW`,
`throwException` with an argument at the address of the own buffer returns with the
state `THROW` and nothing else changed: buffer, descriptor, destructor and `previousES`
are what they were, no destructor is called and no object is constructed. -/
theorem self_rethrow {n : Nat} (env : TypeEnv) (T : CType) (this : ExceptionState n)
    (log : Log n) (h1 : this.state ≠ .THROW) (h2 : this.state ≠ .RETHROW) :
    this.throwException env T .ownBuffer log = .ret ({ this with state := .THROW }, log) := by
  have ht := isExceptionThrowing_eq_false this h1 h2
  simp [throwException, throwExceptionHelper, ht, compareAdresses, setToThrowingState]

/-- C17 at a concrete input: `handlingFrame` throws the object in its own buffer. -/
theorem self_rethrow_witness :
    handlingFrame.state ≠ .THROW ∧ handlingFrame.state ≠ .RETHROW ∧
    handlingFrame.throwException sampleEnv (tClass 2) .ownBuffer [] =
      .ret ({ handlingFrame with state := .THROW }, []) :=
  ⟨by decide, by decide,
    self_rethrow sampleEnv (tClass 2) handlingFrame [] (by decide) (by decide)⟩

/-- C18: construction and destruction keep the current-frame slot LIFO. Constructing a
frame with previous chain `p` stores in the slot the new frame, linked to `p`, in state
`CLEAR` with the cleared descriptor and no destructor. Destroying a frame that is not
`THROW` or `RETHROW` calls its recorded destructor once on its buffer if one is
recorded and none otherwise, leaves the frames behind it as they were, and stores its
previous chain in the slot. So constructing a frame on top of the chain `c` and
destroying it without a throw restores the slot to `c`, without a destructor call. -/
theorem frame_slot_is_lifo :
    (∀ (n : Nat) (garbage : Buffer n) (p : Chain n),
      ∃ f, create garbage p = f :: p ∧ f.state = .CLEAR ∧ f.typeId = InstanceType.clear ∧
        f.destruct = none ∧ f.previousES = p.address ∧ f.exceptionBuffer = garbage) ∧
    (∀ (n : Nat) (F : ExceptionState n) (previousES : Chain n) (log : Log n),
      F.state ≠ .THROW → F.state ≠ .RETHROW →
      F.destroy previousES log = .ret ⟨F, previousES,
        match F.destruct with
        | some d => log ++ [⟨d, F.exceptionBuffer⟩]
        | none => log⟩) ∧
    (∀ (n : Nat) (garbage : Buffer n) (c : Chain n) (log : Log n),
      exitScope (create garbage c) log = .ret (c, log)) := by
  refine ⟨?_, ?_, ?_⟩
  · intro n garbage p
    exact ⟨_, rfl, rfl, rfl, rfl, rfl, rfl⟩
  · intro n F previousES log h1 h2
    have ht := isExceptionThrowing_eq_false F h1 h2
    simp only [destroy, ht, Bool.false_eq_true, if_false]
    unfold callDestructIfSet
    rfl
  · intro n garbage c log
    simp [create, exitScope, destroy, isExceptionThrowing, State.toNat, callDestructIfSet,
      Outcome.bind]

/-- C18 at concrete inputs: a frame constructed on `handlingFrame` and destroyed, and
`handlingFrame` itself destroyed with its recorded destructor. -/
theorem frame_slot_is_lifo_witness :
    exitScope (create (buf4 0 0 0 0) [handlingFrame]) [] = .ret ([handlingFrame], []) ∧
    handlingFrame.destroy [] [] =
      .ret ⟨handlingFrame, [], [⟨tClass 2, buf4 7 7 7 7⟩]⟩ :=
  ⟨frame_slot_is_lifo.2.2 4 (buf4 0 0 0 0) [handlingFrame] [],
    frame_slot_is_lifo.2.1 4 handlingFrame [] [] (by decide) (by decide)⟩

/-- C19: `isBaseOf` is the symmetric walk of `isDerivedOf`. For all types `T` and `U`,
`isBaseOf<T>()` on a descriptor set to `U` returns what `isDerivedOf<U>()` on a
descriptor set to `T` returns: true exactly when the identity of `U` is a strict
ancestor of the identity of `T` in the single-inheritance chain. Both return false when
`T` and `U` have the same identity. -/
theorem isBaseOf_symmetric_to_isDerivedOf (env : TypeEnv) (T U : CType) :
    (InstanceType.set U).isBaseOf env T = (InstanceType.set T).isDerivedOf env U ∧
    ((InstanceType.set U).isBaseOf env T = true ↔
      IsAncestor env (getTypeId U) (getTypeId T)) ∧
    (getTypeId T = getTypeId U →
      (InstanceType.set U).isBaseOf env T = false ∧
      (InstanceType.set T).isDerivedOf env U = false) := by
  have hb : (InstanceType.set U).isBaseOf env T = true ↔
      IsAncestor env (getTypeId U) (getTypeId T) := isBaseOf_iff env (InstanceType.set U) T
  have hd : (InstanceType.set T).isDerivedOf env U = true ↔
      IsAncestor env (getTypeId U) (getTypeId T) := isDerivedOf_iff env (InstanceType.set T) U
  refine ⟨?_, hb, ?_⟩
  · rw [Bool.eq_iff_iff, hb, hd]
  · intro hid
    have hna : ¬ IsAncestor env (getTypeId U) (getTypeId T) := by
      rw [hid]
      exact not_isAncestor_self env _
    constructor
    · rw [Bool.eq_false_iff, Ne, hb]
      exact hna
    · rw [Bool.eq_false_iff, Ne, hd]
      exact hna

/-- C20: rethrow resolution cannot fail on a reachable stack. In every stack reachable
from the empty stack by frame construction, destruction of the top frame and the four
entry points on the top frame, each one returning, every frame in state `RETHROW` has a
frame in state `HANDLETHROW` behind it. Hence for every frame of such a stack
`getLatestHandlingExceptionState()` is not `NULL` when the frame is in state `RETHROW`,
and `holdsExceptionOfTypeT` and `getExceptionReference` do not dereference `NULL`. -/
theorem rethrow_resolution_never_null {n : Nat} (env : TypeEnv) (stack : Chain n)
    (h : Reachable env stack) :
    (∀ pre f rest, stack = pre ++ f :: rest → f.state = .RETHROW →
      ∃ p ∈ rest, p.state = .HANDLETHROW) ∧
    (∀ pre f rest, stack = pre ++ f :: rest → f.state = .RETHROW →
      getLatestHandlingExceptionState rest ≠ []) ∧
    (∀ pre f rest (T : CType), stack = pre ++ f :: rest →
      f.holdsExceptionOfTypeT env T rest ≠ .nullDeref ∧
      f.getExceptionReference T rest ≠ .nullDeref) := by
  have hinv := reachable_rethrowResolves env stack h
  refine ⟨hinv, ?_, ?_⟩
  · intro pre f rest hst hf
    obtain ⟨A, up, hA⟩ := findHandling_ne_nil rest (hinv pre f rest hst hf)
    simp [getLatestHandlingExceptionState, hA]
  · intro pre f rest T hst
    by_cases hf : f.state = .RETHROW
    · obtain ⟨A, up, hA⟩ := findHandling_ne_nil rest (hinv pre f rest hst hf)
      constructor
      · simp [holdsExceptionOfTypeT, hf, getLatestHandlingExceptionState, hA]
      · by_cases hp : isPointer T = true <;>
          simp [getExceptionReference, hf, getLatestHandlingExceptionState, hA, hp]
    · constructor
      · simp [holdsExceptionOfTypeT, hf]
      · by_cases hp : isPointer T = true <;>
          simp [getExceptionReference, hf, hp]

/-- C20 at a concrete input: the root frame throws an object of class 0 and commits
to handling it; a frame constructed inside it calls `rethrow()`. -/
theorem rethrow_resolution_never_null_witness :
    Reachable sampleEnv [innerFrame.setToRethrowingState, relocatedFrame.setToHandlingState] ∧
    innerFrame.setToRethrowingState.state = .RETHROW ∧
    (innerFrame.setToRethrowingState.holdsExceptionOfTypeT sampleEnv (tClass 0)
        [relocatedFrame.setToHandlingState] ≠ .nullDeref ∧
      innerFrame.setToRethrowingState.getExceptionReference (tClass 0)
        [relocatedFrame.setToHandlingState] ≠ .nullDeref) :=
  have h1 : Reachable sampleEnv [rootFrame] :=
    Reachable.construct (buf4 0 0 0 0) [] Reachable.empty
  have h2 : Reachable sampleEnv [relocatedFrame] :=
    Reachable.throwException rootFrame [] (tClass 0) (.object [1, 2, 3, 4]) []
      (relocatedFrame, []) h1 (by decide)
  have h3 : Reachable sampleEnv [relocatedFrame.setToHandlingState] :=
    Reachable.getExceptionReference relocatedFrame [] (tClass 0)
      (VoidPtr.bufferOf 1, relocatedFrame.setToHandlingState) h2 (by decide)
  have h4 : Reachable sampleEnv [innerFrame, relocatedFrame.setToHandlingState] :=
    Reachable.construct (buf4 0 0 0 0) [relocatedFrame.setToHandlingState] h3
  have h5 : Reachable sampleEnv
      [innerFrame.setToRethrowingState, relocatedFrame.setToHandlingState] :=
    Reachable.rethrow innerFrame [relocatedFrame.setToHandlingState]
      innerFrame.setToRethrowingState h4 (by decide)
  ⟨h5, rfl,
    (rethrow_resolution_never_null sampleEnv _ h5).2.2 [] innerFrame.setToRethrowingState
      [relocatedFrame.setToHandlingState] (tClass 0) rfl⟩

/-- C21: `CLEAR` frames own nothing. In every stack reachable by frame construction,
destruction of the top frame, `throwException`, `rethrow`, `holdsExceptionOfTypeT` and
`getExceptionReference`, every frame in state `CLEAR` has no recorded destructor and the
cleared descriptor: the identity of `void`, pointer depth 0, const mask 0. Each of the
operations keeps this true on any stack on which it is true (`holdsExceptionOfTypeT`
assigns no field). -/
theorem clear_frames_own_nothing :
    (∀ (n : Nat) (env : TypeEnv) (stack : Chain n), Reachable env stack →
      ∀ f ∈ stack, f.state = .CLEAR →
        f.destruct = none ∧ f.typeId = InstanceType.clear ∧
        f.typeId.typeId = BaseType.void ∧ f.typeId.ptrDepth = 0 ∧ f.typeId.constMask = 0) ∧
    (∀ (n : Nat) (garbage : Buffer n) (stack : Chain n),
      ClearOwnsNothing stack → ClearOwnsNothing (create garbage stack)) ∧
    (∀ (n : Nat) (this : ExceptionState n) (previousES : Chain n) (log : Log n)
      (d : Destroyed n), ClearOwnsNothing (this :: previousES) →
      this.destroy previousES log = .ret d → ClearOwnsNothing d.current) ∧
    (∀ (n : Nat) (env : TypeEnv) (T : CType) (exc : ExcArg) (this : ExceptionState n)
      (previousES : Chain n) (log : Log n) (r : ExceptionState n × Log n),
      ClearOwnsNothing (this :: previousES) →
      this.throwException env T exc log = .ret r → ClearOwnsNothing (r.1 :: previousES)) ∧
    (∀ (n : Nat) (this : ExceptionState n) (previousES : Chain n) (this1 : ExceptionState n),
      ClearOwnsNothing (this :: previousES) →
      this.rethrow previousES = .ret this1 → ClearOwnsNothing (this1 :: previousES)) ∧
    (∀ (n : Nat) (T : CType) (this : ExceptionState n) (previousES : Chain n)
      (r : VoidPtr n × ExceptionState n), ClearOwnsNothing (this :: previousES) →
      this.getExceptionReference T previousES = .ret r →
      ClearOwnsNothing (r.2 :: previousES)) := by
  refine ⟨?_, ?_, ?_, ?_, ?_, ?_⟩
  · intro n env stack h f hf hs
    obtain ⟨h1, h2, h3, h4⟩ := reachable_clearOwnsNothing env stack h f hf hs
    refine ⟨h1, ?_, h2, h3, h4⟩
    cases hty : f.typeId with
    | mk a b c =>
      rw [hty] at h2 h3 h4
      simp only at h2 h3 h4
      subst h2 h3 h4
      rfl
  · intro n garbage stack h
    exact create_clearOwnsNothing garbage stack h
  · intro n this previousES log d h hd
    exact destroy_clearOwnsNothing this previousES log d h hd
  · intro n env T exc this previousES log r h hr
    exact throwException_clearOwnsNothing env T exc this previousES log r h hr
  · intro n this previousES this1 h hr
    exact rethrow_clearOwnsNothing this previousES this1 h hr
  · intro n T this previousES r h hr
    exact getExceptionReference_clearOwnsNothing T this previousES r h hr

/-- C21 at a concrete input: the root frame throws an object of class 0, commits to
handling it, a frame is constructed inside it, throws an `int` 42 and is destroyed;
then a fresh frame is constructed on the root frame, which now holds the `int`. -/
theorem clear_frames_own_nothing_witness :
    Reachable sampleEnv [innerFrame, { throwingFrame with previousES := 0 }] ∧
    innerFrame.state = .CLEAR ∧ innerFrame.destruct = none ∧
    innerFrame.typeId = InstanceType.clear :=
  have h1 : Reachable sampleEnv [rootFrame] :=
    Reachable.construct (buf4 0 0 0 0) [] Reachable.empty
  have h2 : Reachable sampleEnv [relocatedFrame] :=
    Reachable.throwException rootFrame [] (tClass 0) (.object [1, 2, 3, 4]) []
      (relocatedFrame, []) h1 (by decide)
  have h3 : Reachable sampleEnv [relocatedFrame.setToHandlingState] :=
    Reachable.getExceptionReference relocatedFrame [] (tClass 0)
      (VoidPtr.bufferOf 1, relocatedFrame.setToHandlingState) h2 (by decide)
  have h4 : Reachable sampleEnv [innerFrame, relocatedFrame.setToHandlingState] :=
    Reachable.construct (buf4 0 0 0 0) [relocatedFrame.setToHandlingState] h3
  have h5 : Reachable sampleEnv [throwingFrame, relocatedFrame.setToHandlingState] :=
    Reachable.throwException innerFrame [relocatedFrame.setToHandlingState] tInt
      (.object [42, 0, 0, 0]) [] (throwingFrame, []) h4 (by decide)
  have h6 : Reachable sampleEnv [{ throwingFrame with previousES := 0 }] :=
    Reachable.destroy throwingFrame [relocatedFrame.setToHandlingState] []
      ⟨{ throwingFrame with destruct := none, typeId := InstanceType.clear, state := .CLEAR },
        [{ throwingFrame with previousES := 0 }], [⟨tClass 0, buf4 1 2 3 4⟩]⟩ h5 (by decide)
  have h7 : Reachable sampleEnv [innerFrame, { throwingFrame with previousES := 0 }] :=
    Reachable.construct (buf4 0 0 0 0) [{ throwingFrame with previousES := 0 }] h6
  have h8 := clear_frames_own_nothing.1 4 sampleEnv _ h7 innerFrame (by simp) rfl
  ⟨h7, rfl, h8.1, h8.2.1⟩

/-- C22: catch-compatibility is a preorder on types. For every type `T` of pointer
depth at most 7, `do_catch<T>()` on a descriptor set to `T` returns true; and for all
types `T`, `U`, `V`, if `do_catch<U>()` on a descriptor set to `T` and `do_catch<V>()`
on a descriptor set to `U` return true, so does `do_catch<V>()` on a descriptor set to
`T`. -/
theorem do_catch_is_preorder (env : TypeEnv) :
    (∀ T : CType, T.depth ≤ 7 → (InstanceType.set T).do_catch env T = true) ∧
    (∀ T U V : CType, (InstanceType.set T).do_catch env U = true →
      (InstanceType.set U).do_catch env V = true →
      (InstanceType.set T).do_catch env V = true) := by
  constructor
  · intro T _
    exact do_catch_set_self env T
  · intro T U V h1 h2
    rw [do_catch_set_iff] at h1 h2 ⊢
    obtain ⟨hd1, hq1, hi1⟩ := h1
    obtain ⟨hd2, hq2, hi2⟩ := h2
    refine ⟨hd1.trans hd2, ?_, ?_⟩
    · intro hpos
      exact mask_test_trans _ _ _ (getConstMaskObj_lt U.obj) (getConstMaskObj_lt V.obj)
        (hq1 hpos) (hq2 (by rw [← hd1]; exact hpos))
    · rcases hi1 with e1 | a1
      · rw [← e1]
        exact hi2
      · rcases hi2 with e2 | a2
        · rw [e2]
          exact Or.inr a1
        · exact Or.inr (Relation.TransGen.trans a1 a2)

/-- C22 at a concrete input: `MoreDerived` (class 3) is caught as `Derived` (class 1),
`Derived` as `const Base&` (class 0), hence `MoreDerived` as `const Base&`. -/
theorem do_catch_is_preorder_witness :
    (InstanceType.set (tClass 3)).do_catch sampleEnv (tClass 1) = true ∧
    (InstanceType.set (tClass 1)).do_catch sampleEnv (tConstClassRef 0) = true ∧
    (InstanceType.set (tClass 3)).do_catch sampleEnv (tConstClassRef 0) = true ∧
    (InstanceType.set tConstIntPtr).do_catch sampleEnv tConstIntPtr = true :=
  ⟨by decide, by decide,
    (do_catch_is_preorder sampleEnv).2 (tClass 3) (tClass 1) (tConstClassRef 0) (by decide)
      (by decide),
    (do_catch_is_preorder sampleEnv).1 tConstIntPtr (by decide)⟩

/-- C23 as stated fails when the innermost frame is itself handling an object. A frame
in state `HANDLETHROW` holding the `int` 42 sits directly inside `handlingFrame`, which
holds an object of class 2 with bytes `7 7 7 7`. Its `rethrow()` makes it `THROW`, and
destroying it calls the destructor of the object of `handlingFrame` and overwrites the
buffer and the descriptor of `handlingFrame` with the `int`. -/
theorem rethrow_of_handling_frame_replaces_outer_object :
    handlingFrame.state = .HANDLETHROW ∧
    handlingFrame.exceptionBuffer = buf4 7 7 7 7 ∧
    handlingFrame.typeId = InstanceType.set (tClass 2) ∧
    innerHandlingFrame.rethrow [handlingFrame] =
      .ret { innerHandlingFrame with state := .THROW } ∧
    ({ innerHandlingFrame with state := .THROW } : ExceptionState 4).destroy [handlingFrame] [] =
      .ret ⟨{ innerHandlingFrame with
                destruct := none, typeId := InstanceType.clear, state := .CLEAR },
        [{ exceptionBuffer := buf4 42 0 0 0, typeId := InstanceType.set tInt,
           destruct := some tInt, previousES := 0, state := .THROW }],
        [⟨tClass 2, buf4 7 7 7 7⟩]⟩ := by
  decide

/-- C23, amended: a rethrow reaches a handler any number of frames up. Frame `H` is in
state `HANDLETHROW`, the `k = ms.length` frames `ms` nested inside it are in state
`CLEAR`, and the innermost frame `F`, which is not itself in state `HANDLETHROW`, calls
`rethrow()`. Then `F` becomes `RETHROW`; destroying `F` and the frames of `ms`,
innermost first, returns at every step; after `i` exits, for every `i` up to `k`, the
top frame is in state `RETHROW` and answers `holdsExceptionOfTypeT<T>()` with
`do_catch<T>()` of the descriptor of `H`; after `k + 1` exits `H` is on top in state
`THROW` with everything else in it unchanged. The only destructor calls are those the
frames of `ms` had recorded for their own contents (none when they have none): the
destructor of `H` is never called. -/
theorem rethrow_reaches_handler {n : Nat} (env : TypeEnv) (T : CType)
    (F H : ExceptionState n) (ms up : Chain n) (log : Log n)
    (hF : F.state ≠ .HANDLETHROW) (hms : ∀ m ∈ ms, m.state = .CLEAR)
    (hH : H.state = .HANDLETHROW) :
    F.rethrow (ms ++ H :: up) = .ret { F with state := .RETHROW } ∧
    (∀ i, i ≤ ms.length →
      ∃ top, unwind i ({ F with state := .RETHROW } :: ms ++ H :: up) log =
          .ret (top :: ms.drop i ++ H :: up, ownDestructorCalls (ms.take i) log) ∧
        top.state = .RETHROW ∧
        top.holdsExceptionOfTypeT env T (ms.drop i ++ H :: up) =
          .ret (H.typeId.do_catch env T)) ∧
    unwind (ms.length + 1) ({ F with state := .RETHROW } :: ms ++ H :: up) log =
      .ret ({ H with state := .THROW } :: up, ownDestructorCalls ms log) ∧
    ((∀ m ∈ ms, m.destruct = none) → ownDestructorCalls ms log = log) := by
  have hclear : ∀ (l : Chain n), (∀ m ∈ l, m.state = .CLEAR) →
      ∀ m ∈ l, m.state ≠ .HANDLETHROW := by
    intro l hl m hm
    rw [hl m hm]
    decide
  refine ⟨?_, ?_, ?_, ownDestructorCalls_of_none ms log⟩
  · simp only [rethrow, hF, if_false]
    exact rethrowLoop_of_hasHandling F _ ⟨H, by simp, hH⟩
  · intro i hi
    obtain ⟨top, hrun, htop⟩ :=
      unwind_rethrow_prefix ms { F with state := .RETHROW } (H :: up) log i rfl hms hi
    refine ⟨top, hrun, htop, ?_⟩
    have hdrop : ∀ m ∈ ms.drop i, m.state ≠ .HANDLETHROW :=
      hclear _ (fun m hm => hms m (List.mem_of_mem_drop hm))
    simp [holdsExceptionOfTypeT, htop, getLatestHandlingExceptionState,
      findHandling_append (ms.drop i) H up hdrop hH]
  · obtain ⟨top, hrun, htop⟩ :=
      unwind_rethrow_prefix ms { F with state := .RETHROW } (H :: up) log ms.length rfl hms
        le_rfl
    rw [unwind_succ_right, hrun]
    simp only [List.drop_length, List.take_length, Outcome.bind, List.cons_append,
      List.nil_append, exitScope, destroy_rethrow_shortcut top H up _ htop hH]

/-- C23, amended, at a concrete input: a fresh frame two frames inside `handlingFrame`
calls `rethrow()`; three scope exits leave `handlingFrame` in state `THROW`. -/
theorem rethrow_reaches_handler_witness :
    innermostFrame.state ≠ .HANDLETHROW ∧
    (∀ m ∈ [innerFrame, innerFrame], m.state = .CLEAR) ∧
    handlingFrame.state = .HANDLETHROW ∧
    innermostFrame.rethrow [innerFrame, innerFrame, handlingFrame] =
      .ret { innermostFrame with state := .RETHROW } ∧
    unwind 3 [{ innermostFrame with state := .RETHROW }, innerFrame, innerFrame,
        handlingFrame] [] = .ret ([{ handlingFrame with state := .THROW }], []) := by
  have hms : ∀ m ∈ [innerFrame, innerFrame], m.state = .CLEAR := by
    intro m hm
    simp only [List.mem_cons, List.mem_singleton, List.not_mem_nil, or_false, or_self] at hm
    rw [hm]
    rfl
  obtain ⟨e1, -, e3, -⟩ :=
    rethrow_reaches_handler sampleEnv tInt innermostFrame handlingFrame
      [innerFrame, innerFrame] [] [] (by decide) hms rfl
  exact ⟨by decide, hms, rfl, e1, e3⟩

/-- C24: an empty descriptor matches no handler. For the descriptor as the default
constructor or `clear()` leaves it and a handler type `T` whose underlying type is not
`void`, `isEqualTo<T>()`, `isDerivedOf<T>()` and `do_catch<T>()` return false. Hence
`holdsExceptionOfTypeT<T>()` returns false on a frame just constructed, and on a frame
in state `THROW` after `propagateUp` relocated its exception into the previous frame. -/
theorem empty_descriptor_matches_nothing {n : Nat} (env : TypeEnv) (T : CType)
    (h : getTypeId T ≠ BaseType.void) :
    InstanceType.clear.isEqualTo T = false ∧
    InstanceType.clear.isDerivedOf env T = false ∧
    InstanceType.clear.do_catch env T = false ∧
    (∀ (garbage : Buffer n) (previous : Chain n),
      ∃ f, create garbage previous = f :: previous ∧
        f.holdsExceptionOfTypeT env T previous = .ret false) ∧
    (∀ (F P : ExceptionState n) (up : Chain n) (log : Log n),
      F.state = .THROW → P.state ≠ .THROW → P.state ≠ .RETHROW →
      ∃ F1 P1 log1, F.propagateUp (P :: up) log = .ret (F1, P1 :: up, log1) ∧
        F1.typeId = InstanceType.clear ∧
        F1.holdsExceptionOfTypeT env T (P1 :: up) = .ret false) := by
  obtain ⟨h1, h2, h3⟩ := clear_matches_nothing env T h
  refine ⟨h1, h2, h3, ?_, ?_⟩
  · intro garbage previous
    refine ⟨_, rfl, ?_⟩
    simp [holdsExceptionOfTypeT, h3]
  · intro F P up log hF hP1 hP2
    have hp := isExceptionThrowing_eq_false P hP1 hP2
    refine ⟨_, _, _, propagateUp_relocates F P up log hF hp, rfl, ?_⟩
    simp [holdsExceptionOfTypeT, h3]

/-- C24 at a concrete input: the handler `const Base&` (class 0) on a fresh root frame
and on `throwingFrame` after its `int` was relocated into the root frame. -/
theorem empty_descriptor_matches_nothing_witness :
    getTypeId (tConstClassRef 0) ≠ BaseType.void ∧
    InstanceType.clear.do_catch sampleEnv (tConstClassRef 0) = false ∧
    rootFrame.holdsExceptionOfTypeT sampleEnv (tConstClassRef 0) [] = .ret false ∧
    ∃ F1 P1 log1, throwingFrame.propagateUp [rootFrame] [] = .ret (F1, [P1], log1) ∧
      F1.holdsExceptionOfTypeT sampleEnv (tConstClassRef 0) [P1] = .ret false := by
  have hv : getTypeId (tConstClassRef 0) ≠ BaseType.void := by decide
  have hall := @empty_descriptor_matches_nothing 4 sampleEnv (tConstClassRef 0) hv
  obtain ⟨f, hf, hholds⟩ := hall.2.2.2.1 (buf4 0 0 0 0) []
  have hroot : f = rootFrame := by
    have : [rootFrame] = [f] := hf
    simpa using this.symm
  rw [hroot] at hholds
  obtain ⟨F1, P1, log1, e1, -, e3⟩ :=
    hall.2.2.2.2 throwingFrame rootFrame [] [] rfl (by decide) (by decide)
  exact ⟨hv, hall.2.2.1, hholds, F1, P1, log1, e1, e3⟩
